import Mathlib

/-!
Verification development for the CaseStudy data model of the InOutModule
repository (src/CaseStudy.py).  The Python tables are embedded shallowly:
a pandas DataFrame becomes a list of records, a column becomes a record
field (an optional field when the column may hold NaN), scalar factors
become rationals, and fallible operations return Except values.  Machine
floats are modelled by exact rationals, so float-tolerance claims become
exact equalities.
-/

namespace InOutModule

/-! ## Generic list and string helpers (Python built-ins used by the source) -/

/-- Character comparison by code point, as Python compares characters. -/
def charLe (a b : Char) : Bool := a.val.toNat ≤ b.val.toNat

/-- Lexicographic comparison of character lists by code points. -/
def chListLe : List Char → List Char → Bool
  | [], _ => true
  | _ :: _, [] => false
  | a :: as, b :: bs => if a = b then chListLe as bs else charLe a b

/-- Lexicographic string comparison by code points (Python string order). -/
def strLe (a b : String) : Bool := chListLe a.data b.data

/-- Python sorted(...) on strings: ascending code-point order. -/
def sortedStr (l : List String) : List String :=
  l.insertionSort (fun a b => strLe a b = true)

/-- Python sorted(column.unique().tolist()): the distinct values of a column in
ascending order.  (List.dedup keeps a different occurrence than pandas unique,
but after sorting both give the same duplicate-free ascending list.) -/
def sortedUnique (l : List String) : List String := sortedStr l.dedup

/-- Auxiliary for the Python slice l[::n]: c counts elements still to skip. -/
def takeEveryAux (n : Nat) : Nat → List α → List α
  | _, [] => []
  | 0, x :: xs => x :: takeEveryAux n (n - 1) xs
  | c + 1, _ :: xs => takeEveryAux n c xs

/-- Python slice l[::n] for n ≥ 1: every n-th element, starting with the first. -/
def takeEvery (n : Nat) (l : List α) : List α := takeEveryAux n 0 l

/-- Structurally recursive Series.min() (None on an empty series). -/
def listMin? [LinearOrder α] : List α → Option α
  | [] => none
  | a :: t =>
    match listMin? t with
    | none => some a
    | some m => some (min a m)

/-- Structurally recursive Series.max() (None on an empty series). -/
def listMax? [LinearOrder α] : List α → Option α
  | [] => none
  | a :: t =>
    match listMax? t with
    | none => some a
    | some m => some (max a m)

/-- Mean of a list of rationals, as pandas mean (0/0 for the empty list). -/
def listMean (l : List ℚ) : ℚ := l.sum / l.length

/-- Python exceptions distinguished by the embedding. -/
inductive PyErr where
  | valueErr (msg : String)
  | indexErr
  | attrErr
  | keyErr
deriving DecidableEq

/-- Decidable equality of Except results, for evaluating concrete runs. -/
instance instDecEqExcept {ε α : Type} [DecidableEq ε] [DecidableEq α] :
    DecidableEq (Except ε α) := fun a b =>
  match a, b with
  | Except.error x, Except.error y =>
    if h : x = y then isTrue (by rw [h]) else isFalse fun hc => by cases hc; exact h rfl
  | Except.error _, Except.ok _ => isFalse fun hc => by cases hc
  | Except.ok _, Except.error _ => isFalse fun hc => by cases hc
  | Except.ok x, Except.ok y =>
    if h : x = y then isTrue (by rw [h]) else isFalse fun hc => by cases hc; exact h rfl

/-! ## dPower_Hindex and get_rpTransitionMatrices (CaseStudy.py lines 596-634) -/

/-- One row of dPower_Hindex: multiindex (p, rp, k) plus the scenario tag. -/
structure HindexRow where
  p : String
  rp : String
  k : String
  scenario : String
deriving DecidableEq

def hindexRpColumn (h : List HindexRow) : List String := h.map (·.rp)

def hindexKColumn (h : List HindexRow) : List String := h.map (·.k)

/-- rps = sorted(hindex.index.get_level_values('rp').unique()) (line 597). -/
def hindexRps (h : List HindexRow) : List String := sortedUnique (hindexRpColumn h)

/-- ks = sorted(hindex.index.get_level_values('k').unique()) (line 598). -/
def hindexKs (h : List HindexRow) : List String := sortedUnique (hindexKColumn h)

/-- hindex_rps: the rp column reduced to one entry per block (line 602). -/
def blockRps (h : List HindexRow) : List String :=
  takeEvery (hindexKs h).length (hindexRpColumn h)

/-- The circular previous→current pairs counted in lines 605-608: the
predecessor of the first block is the last block. -/
def circularTransitions (seq : List String) : List (String × String) :=
  match seq.getLast? with
  | none => []
  | some lastRp => (lastRp :: seq.dropLast).zip seq

/-- Entry (x, y) of rpTransitionMatrixAbsolute before clipping. -/
def absCount (h : List HindexRow) (x y : String) : Nat :=
  (circularTransitions (blockRps h)).count (x, y)

/-- The row of the absolute matrix for label x, in rps order. -/
def rowOf (rps : List String) (abs : String → String → Nat) (x : String) : List Nat :=
  rps.map (abs x)

/-- Series.nlargest(cv).min() (line 618): the cv-th largest entry counting
duplicates; none when cv = 0 (pandas yields NaN, and the NaN comparison in
line 621 then keeps every entry). -/
def nlargestMin (cv : Nat) (row : List Nat) : Option Nat :=
  listMin? ((row.insertionSort (· ≥ ·)).take cv)

/-- Lines 618-621 applied to one entry of one row. -/
def clipRowAbsoluteCount (cv : Nat) (row : List Nat) (entry : Nat) : Nat :=
  match nlargestMin cv row with
  | none => entry
  | some t => if entry < t then 0 else entry

/-- clip_method "absolute_count" (lines 614-621): rows indexed by rps are
clipped against their own cv-th largest entry. -/
def clipAbsoluteCount (rps : List String) (abs : String → String → Nat) (cv : Nat) :
    String → String → Nat :=
  fun x y =>
    if x ∈ rps then clipRowAbsoluteCount cv (rowOf rps abs x) (abs x y) else abs x y

/-- clip_method "relative_to_highest" (lines 622-627): entries below
clip_value times the row maximum are zeroed. -/
def clipRelativeToHighest (rps : List String) (abs : String → String → Nat) (cv : ℚ) :
    String → String → Nat :=
  fun x y =>
    if x ∈ rps then
      if (abs x y : ℚ) < ((listMax? (rowOf rps abs x)).getD 0 : ℚ) * cv then 0 else abs x y
    else abs x y

/-- Sum of the absolute-matrix row for x (line 632, sum over axis 1). -/
def rowSumAbs (rps : List String) (abs : String → String → Nat) (x : String) : Nat :=
  (rowOf rps abs x).sum

/-- Sum of the absolute-matrix column for y (line 633, sum over axis 0). -/
def colSumAbs (rps : List String) (abs : String → String → Nat) (y : String) : Nat :=
  (rps.map (fun x => abs x y)).sum

/-- The three matrices returned by get_rpTransitionMatrices.  The relative
matrices hold none where pandas produces NaN (division of a zero row/column
sum; such a row is all zero, so every cell of it is 0/0 = NaN). -/
structure TransitionMatrices where
  rps : List String
  absolute : String → String → Nat
  relativeTo : String → String → Option ℚ
  relativeFrom : String → String → Option ℚ

/-- Lines 631-634: normalize the (possibly clipped) absolute matrix by row
sums (RelativeTo) and column sums (RelativeFrom). -/
def mkTransitionMatrices (rps : List String) (abs : String → String → Nat) :
    TransitionMatrices where
  rps := rps
  absolute := abs
  relativeTo := fun x y =>
    let s := rowSumAbs rps abs x
    if s = 0 then none else some ((abs x y : ℚ) / s)
  relativeFrom := fun x y =>
    let s := colSumAbs rps abs y
    if s = 0 then none else some ((abs x y : ℚ) / s)

/-- CaseStudy.get_rpTransitionMatrices (lines 596-634).  An empty Hindex makes
the Python code raise (slice step 0 at line 602 or index -1 at line 605);
this is modelled as an index error. -/
def get_rpTransitionMatrices (h : List HindexRow) (clip_method : String) (clip_value : ℚ) :
    Except PyErr TransitionMatrices :=
  if h.isEmpty then Except.error PyErr.indexErr
  else if clip_method = "none" then
    Except.ok (mkTransitionMatrices (hindexRps h) (absCount h))
  else if clip_method = "absolute_count" then
    if clip_value.den ≠ 1 ∨ clip_value < 0 then
      Except.error (PyErr.valueErr "clip_value must be a non-negative integer")
    else
      Except.ok (mkTransitionMatrices (hindexRps h)
        (clipAbsoluteCount (hindexRps h) (absCount h) clip_value.num.toNat))
  else if clip_method = "relative_to_highest" then
    if clip_value < 0 ∨ 1 < clip_value then
      Except.error (PyErr.valueErr "clip_value must be between 0 and 1")
    else
      Except.ok (mkTransitionMatrices (hindexRps h)
        (clipRelativeToHighest (hindexRps h) (absCount h) clip_value))
  else Except.error (PyErr.valueErr "invalid clip_method")

/-- The cv-th largest value of a row, counting duplicates (cv clamped to the
row length); used to state the absolute_count clipping claim. -/
def kthLargest (cv : Nat) (row : List Nat) : Nat :=
  (row.insertionSort (· ≥ ·)).getD (min cv row.length - 1) 0

/-- A concrete Hindex realizing the block sequence rp1, rp2, rp1, rp2 with a
single k label. -/
def hindexFour : List HindexRow :=
  [HindexRow.mk "h0001" "rp1" "k0001" "ScenarioA",
   HindexRow.mk "h0002" "rp2" "k0001" "ScenarioA",
   HindexRow.mk "h0003" "rp1" "k0001" "ScenarioA",
   HindexRow.mk "h0004" "rp2" "k0001" "ScenarioA"]

/-! ## filter_scenario (CaseStudy.py lines 706-726)

The scenario-dependent dataframes are modelled uniformly: a row is its
scenario tag plus an opaque row identity, and the CaseStudy instance is its
Python attribute table, an association list from dataframe name to attribute
value.  An absent name is hasattr = False; a present name holds either
Python None (as the constructor stores for the import/export tables when
pEnablePowerImportExport is off, lines 208-209) or an actual table. -/

/-- A row of a scenario-dependent dataframe. -/
structure SRow where
  scenario : String
  rowId : Nat
deriving DecidableEq

/-- A CaseStudy as seen by filter_scenario: its table attributes. -/
structure FilterCaseStudy where
  attrs : List (String × Option (List SRow))
deriving DecidableEq

/-- CaseStudy.scenario_dependent_dataframes (line 37): rpk-dependent,
rp-only, k-only and non-time-dependent names, in source order. -/
def scenario_dependent_dataframes : List String :=
  ["dPower_Demand", "dPower_Hindex", "dPower_ImpExpProfiles", "dPower_Inflows",
   "dPower_VRESProfiles", "dPower_WeightsRP", "dPower_WeightsK", "dPower_BusInfo",
   "dPower_ImpExpHubs", "dPower_Network", "dPower_Storage", "dPower_ThermalGen",
   "dPower_VRES"]

/-- getattr/hasattr on the attribute table: the value bound to the first
occurrence of the name (none when the attribute does not exist). -/
def lookupAttr : List (String × Option (List SRow)) → String → Option (Option (List SRow))
  | [], _ => none
  | (n, v) :: rest, name => if n = name then some v else lookupAttr rest name

/-- setattr on an existing attribute: replace the first binding of the name.
(filter_scenario reaches setattr only under hasattr, so the name exists.) -/
def setAttr : List (String × Option (List SRow)) → String → Option (List SRow) →
    List (String × Option (List SRow))
  | [], _, _ => []
  | (n, v) :: rest, name, newv =>
    if n = name then (n, newv) :: rest else (n, v) :: setAttr rest name newv

/-- One iteration of the filter_scenario loop (lines 715-724) for dataframe
df_name, acting on self.  hasattr is checked on caseStudy (line 716), but
since the loop never adds or removes attributes, caseStudy and self always
have the same attribute names, so the check is read off self.  A present
attribute holding Python None makes line 719 raise (None has no .loc /
cannot be subscripted), modelled as attrErr. -/
def filterStep (scenario_name : String) (self : FilterCaseStudy) (df_name : String) :
    Except PyErr FilterCaseStudy :=
  match lookupAttr self.attrs df_name with
  | none => Except.ok self
  | some none => Except.error PyErr.attrErr
  | some (some df) =>
    if df.length > 0 ∧ (df.filter fun r => r.scenario = scenario_name).length = 0 then
      Except.error (PyErr.valueErr ("Scenario not found in " ++ df_name))
    else
      Except.ok (FilterCaseStudy.mk (setAttr self.attrs df_name
        (some (df.filter fun r => r.scenario = scenario_name))))

/-- The filter_scenario loop over a list of dataframe names. -/
def filterLoop (scenario_name : String) (names : List String) (st : FilterCaseStudy) :
    Except PyErr FilterCaseStudy :=
  names.foldlM (filterStep scenario_name) st

/-- CaseStudy.filter_scenario (lines 706-726).  Returns the pair
(state of self after the call, value returned to the caller).  The source
reads with getattr(self, ...) and writes with setattr(self, ...) at lines
717 and 724 even when inplace is False, while the value returned to the
caller is the deep copy taken at line 713 before the loop; deepcopy makes
that snapshot structurally independent, which the immutable embedding
renders by keeping the original record value. -/
def filter_scenario (cs : FilterCaseStudy) (scenario_name : String) (inplace : Bool) :
    Except PyErr (FilterCaseStudy × Option FilterCaseStudy) := do
  let final ← filterLoop scenario_name scenario_dependent_dataframes cs
  pure (final, if inplace then none else some cs)

/-- Does filter_scenario raise the ValueError of line 722? (Bool form.) -/
def isScenarioValueError : Except PyErr (FilterCaseStudy × Option FilterCaseStudy) → Bool
  | Except.error (PyErr.valueErr _) => true
  | _ => false

/-- Dataframe df_name of cs is a real table that is non-empty but loses every
row when restricted to scenario sc. -/
def emptiedAt (cs : FilterCaseStudy) (sc : String) (df_name : String) : Prop :=
  ∃ df, lookupAttr cs.attrs df_name = some (some df) ∧ df ≠ [] ∧
    df.filter (fun r => r.scenario = sc) = []

/-- Concrete CaseStudy for the filter_scenario aliasing bug: one
scenario-dependent table with rows for two scenarios, plus one
non-dependent table. -/
def csFilterBug : FilterCaseStudy :=
  FilterCaseStudy.mk
    [("dPower_Demand", some [SRow.mk "ScenarioA" 0, SRow.mk "ScenarioB" 1]),
     ("dGlobal_Parameters", some [SRow.mk "Scenarios" 2])]

/-- csFilterBug after its dPower_Demand is restricted to ScenarioA. -/
def csFilterBugFiltered : FilterCaseStudy :=
  FilterCaseStudy.mk
    [("dPower_Demand", some [SRow.mk "ScenarioA" 0]),
     ("dGlobal_Parameters", some [SRow.mk "Scenarios" 2])]

/-- Concrete CaseStudy for the filter_scenario error-condition claim: a
healthy table, an attribute holding Python None (import/export disabled),
and a non-empty table that has no ScenarioA rows. -/
def csFilterNone : FilterCaseStudy :=
  FilterCaseStudy.mk
    [("dPower_Demand", some [SRow.mk "ScenarioA" 0]),
     ("dPower_ImpExpProfiles", none),
     ("dPower_BusInfo", some [SRow.mk "ScenarioB" 1])]

/-! ## Unit scaling (CaseStudy.py lines 214-342)

Each scale function is parameterized by the scaling factors it reads from
self; scale_CaseStudy threads the CaseStudy record through them.  The pandas
dtype check of lines 294-300 is represented by typing MinUpTime and
MinDownTime as integers (an int64 column, for which fillna is the identity
and the check passes); a float column would make the Python code raise
unconditionally, a state not reachable from integer input columns. -/

/-- The scaling-relevant entries of dPower_Parameters (a dict in the source)
plus the enable flags read by scale_CaseStudy. -/
structure PowerParams where
  pSBase : ℚ
  pENSCost : ℚ
  pLOLCost : ℚ
  pMaxAngleDCOPF : ℚ
  pEnableThermalGen : Bool
  pEnableVRES : Bool
  pEnableStorage : Bool
  pEnablePowerImportExport : Bool
deriving DecidableEq

/-- The columns of dPower_Network touched by scale_dPower_Network. -/
structure NetworkScaleRow where
  pInvestCost : Option ℚ
  pPmax : ℚ
deriving DecidableEq

/-- A row of dPower_Demand or dPower_Inflows: only the value column is
touched by scaling. -/
structure ValueRow where
  value : ℚ
deriving DecidableEq

/-- The columns of dPower_ThermalGen touched by scale_dPower_ThermalGen.
Optional fields are columns that may hold NaN before scaling. -/
structure ThermalGenRow where
  ExisUnits : ℚ
  EnableInvest : ℚ
  EFOR : Option ℚ
  OMVarCost : ℚ
  FuelCost : ℚ
  Efficiency : ℚ
  CommitConsumption : ℚ
  StartupConsumption : ℚ
  pSlopeVarCostEUR : ℚ
  pInterVarCostEUR : ℚ
  pStartupCostEUR : ℚ
  MaxInvest : ℚ
  RampUp : ℚ
  RampDw : ℚ
  MaxProd : ℚ
  MinProd : ℚ
  InvestCost : ℚ
  InvestCostEUR : ℚ
  MinUpTime : ℤ
  MinDownTime : ℤ
  Qmin : Option ℚ
  Qmax : Option ℚ
deriving DecidableEq

/-- The columns of dPower_VRES touched by scale_dPower_VRES.  The
add-missing-MinProd-column branch (lines 310-311) is not represented: the
embedding fixes the schema, and no downstream code in the file reads
MinProd. -/
structure VRESRow where
  ExisUnits : ℚ
  EnableInvest : ℚ
  MaxInvest : ℚ
  MinProd : ℚ
  InvestCost : ℚ
  InvestCostEUR : ℚ
  MaxProd : ℚ
  OMVarCost : ℚ
  Qmin : Option ℚ
  Qmax : Option ℚ
deriving DecidableEq

/-- The columns of dPower_Storage touched by scale_dPower_Storage.  The
source column Ene2PowRatio is shortened to Ene2Pow here. -/
structure StorageRow where
  ExisUnits : ℚ
  EnableInvest : ℚ
  MaxInvest : ℚ
  IniReserve : Option ℚ
  MinReserve : Option ℚ
  MinProd : Option ℚ
  OMVarCost : ℚ
  pOMVarCostEUR : ℚ
  MaxProd : ℚ
  MaxCons : ℚ
  InvestCostPerMW : ℚ
  InvestCostPerMWh : ℚ
  Ene2Pow : ℚ
  InvestCostEUR : ℚ
  Qmin : Option ℚ
  Qmax : Option ℚ
  DisEffic : Option ℚ
  ChEffic : Option ℚ
deriving DecidableEq

/-- The columns "Pmax Import" / "Pmax Export" of dPower_ImpExpHubs. -/
structure HubRow where
  PmaxImport : ℚ
  PmaxExport : ℚ
deriving DecidableEq

/-- The ImpExp column of dPower_ImpExpProfiles. -/
structure ImpExpRow where
  ImpExp : ℚ
deriving DecidableEq

/-- A CaseStudy as seen by the scaling engine: the four factors of lines
214-217 and every table scale_CaseStudy touches.  hasInflows models
hasattr(self, "dPower_Inflows") (line 233). -/
structure ScalingCaseStudy where
  power_scaling_factor : ℚ
  cost_scaling_factor : ℚ
  reactive_power_scaling_factor : ℚ
  angle_to_rad_scaling_factor : ℚ
  dPower_Parameters : PowerParams
  dPower_Network : List NetworkScaleRow
  dPower_Demand : List ValueRow
  dPower_ThermalGen : List ThermalGenRow
  hasInflows : Bool
  dPower_Inflows : List ValueRow
  dPower_VRES : List VRESRow
  dPower_Storage : List StorageRow
  dPower_ImpExpHubs : List HubRow
  dPower_ImpExpProfiles : List ImpExpRow
deriving DecidableEq

/-- Lines 257-262. -/
def scale_dPower_Parameters (p c a : ℚ) (d : PowerParams) : PowerParams :=
  { d with
    pSBase := d.pSBase * p,
    pENSCost := d.pENSCost * (c / p),
    pLOLCost := d.pLOLCost * (c / p),
    pMaxAngleDCOPF := d.pMaxAngleDCOPF * a }

/-- Lines 264-266. -/
def scale_dPower_Network (p : ℚ) (rows : List NetworkScaleRow) : List NetworkScaleRow :=
  rows.map fun rw =>
    { rw with pInvestCost := some (rw.pInvestCost.getD 0), pPmax := rw.pPmax * p }

/-- Lines 268-269. -/
def scale_dPower_Demand (p : ℚ) (rows : List ValueRow) : List ValueRow :=
  rows.map fun rw => { rw with value := rw.value * p }

/-- Lines 305-306. -/
def scale_dPower_Inflows (p : ℚ) (rows : List ValueRow) : List ValueRow :=
  rows.map fun rw => { rw with value := rw.value * p }

/-- Lines 271-303: keep only existing or investable units, then fill and
scale the listed columns in source order (InvestCostEUR reads the already
scaled MaxProd of line 286). -/
def scale_dPower_ThermalGen (p c r : ℚ) (rows : List ThermalGenRow) : List ThermalGenRow :=
  (rows.filter fun g => g.ExisUnits > 0 ∨ g.EnableInvest > 0).map fun g =>
    let efor := g.EFOR.getD 0
    let maxProd := g.MaxProd * (p * (1 - efor))
    { g with
      EFOR := some efor,
      pSlopeVarCostEUR := (g.OMVarCost + g.FuelCost / g.Efficiency) * (c / p),
      pInterVarCostEUR := g.CommitConsumption * g.FuelCost * c,
      pStartupCostEUR := g.StartupConsumption * g.FuelCost * c,
      MaxInvest := if g.EnableInvest = 1 ∧ g.ExisUnits = 0 then 1 else 0,
      RampUp := g.RampUp * p,
      RampDw := g.RampDw * p,
      MaxProd := maxProd,
      MinProd := g.MinProd * (p * (1 - efor)),
      InvestCostEUR := g.InvestCost * (c / p) * maxProd,
      Qmin := some (g.Qmin.getD 0 * r),
      Qmax := some (g.Qmax.getD 0 * r) }

/-- Lines 308-318 (InvestCostEUR reads the MaxProd value before line 314
scales it). -/
def scale_dPower_VRES (p c r : ℚ) (rows : List VRESRow) : List VRESRow :=
  (rows.filter fun g => g.ExisUnits > 0 ∨ (g.EnableInvest > 0 ∧ g.MaxInvest > 0)).map fun g =>
    { g with
      InvestCostEUR := g.InvestCost * (c / p) * g.MaxProd * p,
      MaxProd := g.MaxProd * p,
      OMVarCost := g.OMVarCost * (c / p),
      Qmin := some (g.Qmin.getD 0 * r),
      Qmax := some (g.Qmax.getD 0 * r) }

/-- Lines 320-335: filter, fill, derive and scale, then raise if any
discharge/charge efficiency is NaN. -/
def scale_dPower_Storage (p c r : ℚ) (rows : List StorageRow) : Except PyErr (List StorageRow) :=
  let scaled := (rows.filter fun g =>
      g.ExisUnits > 0 ∨ (g.EnableInvest > 0 ∧ g.MaxInvest > 0)).map fun g =>
    { g with
      IniReserve := some (g.IniReserve.getD 0),
      MinReserve := some (g.MinReserve.getD 0),
      MinProd := some (g.MinProd.getD 0),
      pOMVarCostEUR := g.OMVarCost * (c / p),
      InvestCostEUR := g.MaxProd * p * (g.InvestCostPerMW + g.InvestCostPerMWh * g.Ene2Pow) * (c / p),
      MaxProd := g.MaxProd * p,
      MaxCons := g.MaxCons * p,
      Qmin := some (g.Qmin.getD 0 * r),
      Qmax := some (g.Qmax.getD 0 * r) }
  if scaled.any fun g => g.DisEffic.isNone || g.ChEffic.isNone then
    Except.error (PyErr.valueErr "DisEffic and ChEffic must not contain NaN values")
  else Except.ok scaled

/-- Lines 337-339. -/
def scale_dPower_ImpExpHubs (p : ℚ) (rows : List HubRow) : List HubRow :=
  rows.map fun rw => { rw with PmaxImport := rw.PmaxImport * p, PmaxExport := rw.PmaxExport * p }

/-- Lines 341-342. -/
def scale_dPower_ImpExpProfiles (p : ℚ) (rows : List ImpExpRow) : List ImpExpRow :=
  rows.map fun rw => { rw with ImpExp := rw.ImpExp * p }

/-- CaseStudy.scale_CaseStudy (lines 225-244).  The enable flags are not
modified by any scale function, so reading them from the input record
matches the source, which reads them after scaling dPower_Parameters.  The
only exception a scale function can raise (NaN storage efficiency) aborts
the whole operation, as it propagates out of the Python method. -/
def scale_CaseStudy (cs : ScalingCaseStudy) : Except PyErr ScalingCaseStudy :=
  let p := cs.power_scaling_factor
  let c := cs.cost_scaling_factor
  let r := cs.reactive_power_scaling_factor
  let a := cs.angle_to_rad_scaling_factor
  match (if cs.dPower_Parameters.pEnableStorage then
          scale_dPower_Storage p c r cs.dPower_Storage
         else Except.ok cs.dPower_Storage) with
  | Except.error e => Except.error e
  | Except.ok storageRows =>
    Except.ok
      { cs with
        dPower_Parameters := scale_dPower_Parameters p c a cs.dPower_Parameters,
        dPower_Network := scale_dPower_Network p cs.dPower_Network,
        dPower_Demand := scale_dPower_Demand p cs.dPower_Demand,
        dPower_ThermalGen :=
          if cs.dPower_Parameters.pEnableThermalGen then
            scale_dPower_ThermalGen p c r cs.dPower_ThermalGen
          else cs.dPower_ThermalGen,
        dPower_Inflows :=
          if cs.hasInflows then scale_dPower_Inflows p cs.dPower_Inflows
          else cs.dPower_Inflows,
        dPower_VRES :=
          if cs.dPower_Parameters.pEnableVRES then scale_dPower_VRES p c r cs.dPower_VRES
          else cs.dPower_VRES,
        dPower_Storage := storageRows,
        dPower_ImpExpHubs :=
          if cs.dPower_Parameters.pEnablePowerImportExport then
            scale_dPower_ImpExpHubs p cs.dPower_ImpExpHubs
          else cs.dPower_ImpExpHubs,
        dPower_ImpExpProfiles :=
          if cs.dPower_Parameters.pEnablePowerImportExport then
            scale_dPower_ImpExpProfiles p cs.dPower_ImpExpProfiles
          else cs.dPower_ImpExpProfiles }

/-- CaseStudy.remove_scaling (lines 246-255): invert the power, cost and
angle factors (the reactive-power factor is not inverted), re-run
scale_CaseStudy, then restore the factors. -/
def remove_scaling (cs : ScalingCaseStudy) : Except PyErr ScalingCaseStudy :=
  let cs1 :=
    { cs with
      power_scaling_factor := 1 / cs.power_scaling_factor,
      cost_scaling_factor := 1 / cs.cost_scaling_factor,
      angle_to_rad_scaling_factor := 1 / cs.angle_to_rad_scaling_factor }
  match scale_CaseStudy cs1 with
  | Except.error e => Except.error e
  | Except.ok cs2 =>
    Except.ok
      { cs2 with
        power_scaling_factor := 1 / cs2.power_scaling_factor,
        cost_scaling_factor := 1 / cs2.cost_scaling_factor,
        angle_to_rad_scaling_factor := 1 / cs2.angle_to_rad_scaling_factor }

/-- A thermal generator with nonzero reactive-power limits, used to settle
the scaling round-trip claim. -/
def thermalRowQ : ThermalGenRow where
  ExisUnits := 1
  EnableInvest := 0
  EFOR := none
  OMVarCost := 0
  FuelCost := 0
  Efficiency := 1
  CommitConsumption := 0
  StartupConsumption := 0
  pSlopeVarCostEUR := 0
  pInterVarCostEUR := 0
  pStartupCostEUR := 0
  MaxInvest := 0
  RampUp := 1
  RampDw := 1
  MaxProd := 1
  MinProd := 0
  InvestCost := 0
  InvestCostEUR := 0
  MinUpTime := 0
  MinDownTime := 0
  Qmin := some 1
  Qmax := some 1

/-- Concrete CaseStudy with valid (nonzero) factors: the reactive-power
factor is the fixed 1e-3 of line 216. -/
def csScalingCounter : ScalingCaseStudy where
  power_scaling_factor := 1
  cost_scaling_factor := 1
  reactive_power_scaling_factor := 1 / 1000
  angle_to_rad_scaling_factor := 1
  dPower_Parameters :=
    { pSBase := 1, pENSCost := 1, pLOLCost := 1, pMaxAngleDCOPF := 1,
      pEnableThermalGen := true, pEnableVRES := false, pEnableStorage := false,
      pEnablePowerImportExport := false }
  dPower_Network := [{ pInvestCost := none, pPmax := 1 }]
  dPower_Demand := [{ value := 1 }]
  dPower_ThermalGen := [thermalRowQ]
  hasInflows := false
  dPower_Inflows := []
  dPower_VRES := []
  dPower_Storage := []
  dPower_ImpExpHubs := []
  dPower_ImpExpProfiles := []

/-- An all-disabled CaseStudy with empty tables and unit factors, on which
remove_scaling and scale_CaseStudy are both the identity. -/
def csScalingWitness : ScalingCaseStudy where
  power_scaling_factor := 1
  cost_scaling_factor := 1
  reactive_power_scaling_factor := 1 / 1000
  angle_to_rad_scaling_factor := 1
  dPower_Parameters :=
    { pSBase := 1, pENSCost := 1, pLOLCost := 1, pMaxAngleDCOPF := 1,
      pEnableThermalGen := false, pEnableVRES := false, pEnableStorage := false,
      pEnablePowerImportExport := false }
  dPower_Network := []
  dPower_Demand := []
  dPower_ThermalGen := []
  hasInflows := false
  dPower_Inflows := []
  dPower_VRES := []
  dPower_Storage := []
  dPower_ImpExpHubs := []
  dPower_ImpExpProfiles := []

/-! ## merge_single_node_buses (CaseStudy.py lines 453-593) -/

/-- The bus-info columns surviving the merge aggregation (lines 495-511);
the merged row is built from exactly these, other columns become NaN. -/
structure BusRow where
  name : String
  zoi : ℚ
  YearCom : ℚ
  YearDecom : ℚ
  lat : ℚ
  long : ℚ
deriving DecidableEq

/-- A network row: endpoints i, j, the circuit index level c, the pTecRepr
column read at line 475, and the columns of the aggregation dict of lines
541-556.  c and pTecRepr are optional because the groupby-aggregate of line
557 drops them (dropped columns are modelled as none). -/
structure NetRow where
  i : String
  j : String
  c : Option String
  pTecRepr : Option String
  X : ℚ
  Pmax : ℚ
  techRepr : String
  LineID : String
  YearCom : ℚ
  YearDecom : ℚ
deriving DecidableEq

/-- A generator/storage row: only the bus column i is touched by the merge. -/
structure GenRow where
  g : String
  i : String
deriving DecidableEq

/-- A demand row keyed (rp, k, i) with its value. -/
structure DemandRow where
  rp : String
  k : String
  i : String
  value : ℚ
deriving DecidableEq

/-- A VRES-profile row as merge_single_node_buses reads it (columns rp, i,
k, tec and a value, lines 585-592). -/
structure VRESProfileRow where
  rp : String
  i : String
  k : String
  tec : String
  value : ℚ
deriving DecidableEq

/-- A CaseStudy as seen by merge_single_node_buses. -/
structure MergeCaseStudy where
  dPower_BusInfo : List BusRow
  dPower_Network : List NetRow
  dPower_ThermalGen : List GenRow
  dPower_VRES : List GenRow
  dPower_Storage : List GenRow
  dPower_Demand : List DemandRow
  dPower_VRESProfiles : List VRESProfileRow
deriving DecidableEq

/-- Lines 476-477 for one SN-tagged network row.  The network table carries
the canonical three-level (i, j, c) MultiIndex (ExcelReader line 333), so
line 476 hands the full 3-tuple to a .loc setitem on the bus-by-bus frame:
the (row, column) reading fails pandas key-length validation (suppressed
IndexingError) and the setitem falls back to reading the tuple as a list of
row labels [i, j, c], raising KeyError unless i, j and the circuit label c
are all bus names — in which case it sets the whole rows i, j and c to
True.  Line 477 then writes the single cell (j, i).  A dropped circuit
column (c = none, a state only the aggregation output produces) is read as
the empty label. -/
def connectionMatrixStep (busList : List String) (mat : String → String → Bool)
    (row : NetRow) : Except PyErr (String → String → Bool) :=
  let c := row.c.getD ""
  if row.i ∈ busList ∧ row.j ∈ busList ∧ c ∈ busList then
    Except.ok fun a b =>
      if a = row.i ∨ a = row.j ∨ a = c ∨ (a = row.j ∧ b = row.i) then true
      else mat a b
  else Except.error PyErr.keyErr

/-- Lines 472-477: the all-False bus-by-bus matrix of line 472, updated by
lines 476-477 for every network row tagged SN, in table order; the KeyError
of the first failing row aborts the construction. -/
def connectionMatrix (net : List NetRow) (busList : List String) :
    Except PyErr (String → String → Bool) :=
  net.foldlM
    (fun mat row =>
      if row.pTecRepr = some "SN" then connectionMatrixStep busList mat row
      else Except.ok mat)
    fun _ _ => false

/-- Lines 455-464: iterative stack traversal.  Python pops from the end of
the stack list and appends the unvisited neighbours in column order; with
the head of the Lean list as top of stack this is reproduced by pushing the
neighbour list reversed.  Fuel bounds the iteration count; every bus enters
the stack at most once, so busList.length + 1 iterations always finish. -/
def get_connected_buses_aux (mat : String → String → Bool) (busList : List String) :
    Nat → List String → List String → List String
  | 0, _, visited => visited
  | _ + 1, [], visited => visited
  | fuel + 1, current :: stack, visited =>
    let visited1 := visited ++ [current]
    let toPush := (busList.filter fun b => mat current b).filter
      fun b => b ∉ visited1 ∧ b ∉ stack
    get_connected_buses_aux mat busList fuel (toPush.reverse ++ stack) visited1

/-- CaseStudy.get_connected_buses (lines 453-467), result sorted (line 466). -/
def get_connected_buses (mat : String → String → Bool) (busList : List String)
    (bus : String) : List String :=
  sortedStr (get_connected_buses_aux mat busList (busList.length + 1) [bus] [])

/-- Comparison of (i, j) keys, as pandas groupby sorts group keys. -/
def pairLe (a b : String × String) : Bool :=
  if a.1 = b.1 then strLe a.2 b.2 else strLe a.1 b.1

/-- Comparison of (rp, i, k) keys. -/
def tripleLe (a b : String × String × String) : Bool :=
  if a.1 = b.1 then pairLe a.2 b.2 else strLe a.1 b.1

/-- Comparison of (rp, i, k, tec) keys. -/
def quadLe (a b : String × String × String × String) : Bool :=
  if a.1 = b.1 then tripleLe a.2 b.2 else strLe a.1 b.1

/-- Line 540, per row: the technical representation becomes DC-OPF when any
row of its (i, j) group has it, else the first group row's value. -/
def netTechTransform (rows : List NetRow) (row : NetRow) : NetRow :=
  { row with
    techRepr :=
      if ((rows.filter fun s => s.i = row.i ∧ s.j = row.j).map
          fun s => s.techRepr).contains "DC-OPF" then "DC-OPF"
      else (((rows.filter fun s => s.i = row.i ∧ s.j = row.j).head?.map
        fun s => s.techRepr).getD "") }

/-- Line 540: the groupwise transform applied to every network row. -/
def transformTechRepr (rows : List NetRow) : List NetRow :=
  rows.map (netTechTransform rows)

/-- Lines 541-556 applied to one (i, j) group: reactance by parallel
admittance (the inverse of 0 is 0 in ℚ; a zero reactance would make Python
raise a division error instead), capacity as minimum times count, first for
the technical representation and LineID, mean for the years; the remaining
columns are dropped. -/
def aggNetworkGroup (key : String × String) (g : List NetRow) : NetRow where
  i := key.1
  j := key.2
  c := none
  pTecRepr := none
  X := ((g.map fun row => 1 / row.X).sum)⁻¹
  Pmax := ((listMin? (g.map (·.Pmax))).getD 0) * g.length
  techRepr := (g.head?.map (·.techRepr)).getD ""
  LineID := (g.head?.map (·.LineID)).getD ""
  YearCom := listMean (g.map (·.YearCom))
  YearDecom := listMean (g.map (·.YearDecom))

/-- The distinct (i, j) keys of the network table, sorted as pandas groupby
sorts them. -/
def netKeys (rows : List NetRow) : List (String × String) :=
  ((rows.map fun row => (row.i, row.j)).dedup).insertionSort fun a b => pairLe a b = true

/-- Lines 540-557: transform the technical representation, then aggregate
each (i, j) group into one row, keys sorted. -/
def mergeNetworkGroups (rows : List NetRow) : List NetRow :=
  let t := transformTechRepr rows
  (netKeys t).map fun key => aggNetworkGroup key (t.filter fun row => row.i = key.1 ∧ row.j = key.2)

/-- Re-key a bus reference into the merged bus name. -/
def renameBusIn (comp : List String) (newName : String) (b : String) : String :=
  if b ∈ comp then newName else b

/-- Lines 578-583: re-keyed demand grouped by (rp, i, k), values summed,
keys sorted (the scenario and bookkeeping columns are elided; pandas sums
them as strings, which no downstream code reads). -/
def demandGroupSum (rows : List DemandRow) : List DemandRow :=
  (((rows.map fun d => (d.rp, d.i, d.k)).dedup).insertionSort fun a b => tripleLe a b = true).map
    fun key =>
      { rp := key.1, i := key.2.1, k := key.2.2,
        value := ((rows.filter fun d => d.rp = key.1 ∧ d.i = key.2.1 ∧ d.k = key.2.2).map
          (·.value)).sum }

/-- Lines 586-593: re-keyed profiles grouped by (rp, i, k, tec), values
averaged, then sorted by index (the groupby output is already key-sorted). -/
def profilesGroupMean (rows : List VRESProfileRow) : List VRESProfileRow :=
  (((rows.map fun d => (d.rp, d.i, d.k, d.tec)).dedup).insertionSort
      fun a b => quadLe a b = true).map
    fun key =>
      { rp := key.1, i := key.2.1, k := key.2.2.1, tec := key.2.2.2,
        value := listMean ((rows.filter fun d =>
          d.rp = key.1 ∧ d.i = key.2.1 ∧ d.k = key.2.2.1 ∧ d.tec = key.2.2.2).map (·.value)) }

/-- Lines 487-593: merge one connected component comp into the bus newName. -/
def processComponent (cs : MergeCaseStudy) (comp : List String) (newName : String) :
    MergeCaseStudy :=
  let entries := cs.dPower_BusInfo.filter fun b => b.name ∈ comp
  let zoneOfInterest : ℚ := if entries.any fun b => b.zoi = 1 then 1 else 0
  let newBus : BusRow :=
    { name := newName, zoi := zoneOfInterest,
      YearCom := listMean (entries.map (·.YearCom)),
      YearDecom := listMean (entries.map (·.YearDecom)),
      lat := listMean (entries.map (·.lat)),
      long := listMean (entries.map (·.long)) }
  let busInfo := (cs.dPower_BusInfo.filter fun b => b.name ∉ comp) ++ [newBus]
  let net1 := cs.dPower_Network.filterMap fun row =>
    if row.i ∈ comp ∧ row.j ∈ comp then none
    else if row.i ∈ comp then some { row with i := newName }
    else if row.j ∈ comp then some { row with j := newName }
    else some row
  let net2 := net1.map fun row =>
    if row.i = newName then { row with i := row.j, j := newName } else row
  { dPower_BusInfo := busInfo,
    dPower_Network := mergeNetworkGroups net2,
    dPower_ThermalGen := cs.dPower_ThermalGen.map fun g => { g with i := renameBusIn comp newName g.i },
    dPower_VRES := cs.dPower_VRES.map fun g => { g with i := renameBusIn comp newName g.i },
    dPower_Storage := cs.dPower_Storage.map fun g => { g with i := renameBusIn comp newName g.i },
    dPower_Demand := demandGroupSum (cs.dPower_Demand.map fun d =>
      { d with i := renameBusIn comp newName d.i }),
    dPower_VRESProfiles := profilesGroupMean (cs.dPower_VRESProfiles.map fun d =>
      { d with i := renameBusIn comp newName d.i }) }

/-- CaseStudy.merge_single_node_buses (lines 469-593).  The connection
matrix construction of lines 472-477 raises KeyError on the first SN-tagged
row whose (i, j, c) labels are not all bus names, and that exception
propagates out of the method.  On success the matrix and the bus iteration
order are captured once (lines 472-481); merged_buses accumulates processed
buses; a bus is skipped when already merged or when its matrix row has no
True entry. -/
def merge_single_node_buses (cs : MergeCaseStudy) : Except PyErr MergeCaseStudy :=
  let busList := cs.dPower_BusInfo.map (·.name)
  match connectionMatrix cs.dPower_Network busList with
  | Except.error e => Except.error e
  | Except.ok mat =>
    Except.ok (busList.foldl
      (fun st bus =>
        if bus ∈ st.2 then st
        else if busList.all fun b => ¬ mat bus b then st
        else
          let comp := get_connected_buses mat busList bus
          let newName := "merged-" ++ String.intercalate "-" comp
          (processComponent st.1 comp newName, st.2 ++ comp))
      (cs, ([] : List String))).1

/-- Three-bus scenario: A-B tagged SN, B-C a normal line. -/
def csMergeABC : MergeCaseStudy where
  dPower_BusInfo :=
    [{ name := "A", zoi := 0, YearCom := 0, YearDecom := 0, lat := 0, long := 0 },
     { name := "B", zoi := 0, YearCom := 0, YearDecom := 0, lat := 0, long := 0 },
     { name := "C", zoi := 0, YearCom := 0, YearDecom := 0, lat := 0, long := 0 }]
  dPower_Network :=
    [{ i := "A", j := "B", c := some "1", pTecRepr := some "SN", X := 1, Pmax := 1,
       techRepr := "SN", LineID := "L1", YearCom := 0, YearDecom := 0 },
     { i := "B", j := "C", c := some "1", pTecRepr := some "ACDC", X := 1, Pmax := 1,
       techRepr := "ACDC", LineID := "L2", YearCom := 0, YearDecom := 0 }]
  dPower_ThermalGen := []
  dPower_VRES := []
  dPower_Storage := []
  dPower_Demand := []
  dPower_VRESProfiles := []

/-- Three-bus scenario producing parallel lines: A-B tagged SN and two
normal lines C-A, C-B with different commissioning years and capacities. -/
def csMergeParallel : MergeCaseStudy where
  dPower_BusInfo :=
    [{ name := "A", zoi := 0, YearCom := 0, YearDecom := 0, lat := 0, long := 0 },
     { name := "B", zoi := 0, YearCom := 0, YearDecom := 0, lat := 0, long := 0 },
     { name := "C", zoi := 0, YearCom := 0, YearDecom := 0, lat := 0, long := 0 }]
  dPower_Network :=
    [{ i := "A", j := "B", c := some "1", pTecRepr := some "SN", X := 1, Pmax := 1,
       techRepr := "SN", LineID := "L1", YearCom := 0, YearDecom := 0 },
     { i := "C", j := "A", c := some "1", pTecRepr := some "ACDC", X := 1, Pmax := 2,
       techRepr := "ACDC", LineID := "L2", YearCom := 2000, YearDecom := 0 },
     { i := "C", j := "B", c := some "1", pTecRepr := some "ACDC", X := 1, Pmax := 3,
       techRepr := "ACDC", LineID := "L3", YearCom := 2010, YearDecom := 0 }]
  dPower_ThermalGen := []
  dPower_VRES := []
  dPower_Storage := []
  dPower_Demand := []
  dPower_VRESProfiles := []

/-! ## shift_ks (CaseStudy.py lines 777-815) -/

/-- A row of a k-dependent time series: its (rp, k) key plus an opaque
payload standing for the remaining index levels and value columns. -/
structure ShiftRow where
  rp : String
  k : String
  data : Nat
deriving DecidableEq

/-- Value of a decimal digit character (int() semantics on digits). -/
def digitVal (ch : Char) : ℤ := (ch.toNat : ℤ) - 48

/-- Decimal numeral to integer, most significant digit first. -/
def parseDigits (l : List Char) : ℤ := l.foldl (fun acc ch => 10 * acc + digitVal ch) 0

/-- Python int() on a (signed) numeral given as a character list. -/
def parseKChars : List Char → ℤ
  | '-' :: rest => -(parseDigits rest)
  | l => parseDigits l

/-- Line 800: k label to integer, str.replace("k", "") then astype(int). -/
def parseK (s : String) : ℤ := parseKChars (s.data.filter fun ch => ch ≠ 'k')

/-- Python str.zfill(4): pad with zeros to at least four characters, the
zeros going after a leading sign. -/
def zfill4 (s : String) : String :=
  if 4 ≤ s.length then s
  else match s.data with
    | '-' :: rest => String.mk ('-' :: (List.replicate (4 - s.length) '0' ++ rest))
    | l => String.mk (List.replicate (4 - s.length) '0' ++ l)

/-- Line 806: integer back to label, "k" + str(v).zfill(4). -/
def formatK (v : ℤ) : String := "k" ++ zfill4 (toString v)

/-- Row comparison by the (rp, k) index prefix, for the sort of line 811. -/
def shiftRowLe (a b : ShiftRow) : Bool :=
  if a.rp = b.rp then strLe a.k b.k else strLe a.rp b.rp

/-- Lines 794-811 for one dataframe: skip empty tables, rotate each parsed
k value by shift modulo (max - min + 1) around the table minimum, rebuild
the zero-padded label, and re-sort by index.  The sort uses the (rp, k)
prefix of the index; further index levels live in the opaque payload, and
order among rows sharing (rp, k) is irrelevant to the claims. -/
def shiftTable (shift : ℤ) (df : List ShiftRow) : List ShiftRow :=
  if df.isEmpty then df
  else
    let kInts := df.map fun row => parseK row.k
    let kmax := (listMax? kInts).getD 0
    let kmin := (listMin? kInts).getD 0
    let moved := df.map fun row =>
      { row with k := formatK ((parseK row.k - kmin + shift) % (kmax - kmin + 1) + kmin) }
    moved.insertionSort fun a b => shiftRowLe a b = true

/-- The per-row relabelling of lines 800-806 with the table minimum kmin and
the modulus N = kmax - kmin + 1 precomputed: the parsed k value moves to
((k - kmin + shift) mod N) + kmin and the label is rebuilt zero-padded. -/
def shiftKey (N kmin shift : ℤ) (row : ShiftRow) : ShiftRow :=
  { row with k := formatK ((parseK row.k - kmin + shift) % N + kmin) }

/-- A CaseStudy as seen by shift_ks: the k-dependent dataframes.  The shifted
ones are optional (hasattr False and Python None are both skipped, modelled
as none); dPower_WeightsK and dPower_Hindex are deliberately not shifted
(lines 789-790). -/
structure ShiftCaseStudy where
  dPower_Demand : Option (List ShiftRow)
  dPower_ImpExpProfiles : Option (List ShiftRow)
  dPower_Inflows : Option (List ShiftRow)
  dPower_VRESProfiles : Option (List ShiftRow)
  dPower_WeightsK : List ShiftRow
  dPower_Hindex : List ShiftRow
deriving DecidableEq

/-- CaseStudy.shift_ks (lines 777-815) as a pure state transformer (the
inplace flag only selects between mutating self and a deep copy). -/
def shift_ks (shift : ℤ) (cs : ShiftCaseStudy) : ShiftCaseStudy :=
  { cs with
    dPower_Demand := cs.dPower_Demand.map (shiftTable shift),
    dPower_ImpExpProfiles := cs.dPower_ImpExpProfiles.map (shiftTable shift),
    dPower_Inflows := cs.dPower_Inflows.map (shiftTable shift),
    dPower_VRESProfiles := cs.dPower_VRESProfiles.map (shiftTable shift) }

/-- The k labels of a table are canonically zero-padded and form the
contiguous range [kmin, kmin + N). -/
def GoodKTable (N kmin : ℤ) (rows : List ShiftRow) : Prop :=
  (∀ row ∈ rows, formatK (parseK row.k) = row.k) ∧
  (∀ row ∈ rows, kmin ≤ parseK row.k ∧ parseK row.k < kmin + N) ∧
  (∀ v : ℤ, kmin ≤ v → v < kmin + N → ∃ row ∈ rows, parseK row.k = v)

/-- Two shifted tables with k labels k0001, k0002 where each rp carries only
one k label: used to settle the pair-preservation part of the shift claim. -/
def shiftRowsCounter : List ShiftRow :=
  [{ rp := "rp1", k := "k0001", data := 0 }, { rp := "rp2", k := "k0002", data := 1 }]

/-! # Theorems -/

/-! ## Lemmas on the generic helpers -/

theorem mem_of_getLast?_eq {α : Type} {l : List α} {a : α} (h : l.getLast? = some a) :
    a ∈ l := by
  cases l with
  | nil => cases h
  | cons x xs =>
    rw [List.getLast?_eq_getLast (x :: xs) (by simp)] at h
    cases h
    exact List.getLast_mem _

theorem mem_sortedStr {l : List String} {x : String} : x ∈ sortedStr l ↔ x ∈ l :=
  (List.perm_insertionSort _ l).mem_iff

theorem mem_sortedUnique {l : List String} {x : String} : x ∈ sortedUnique l ↔ x ∈ l := by
  unfold sortedUnique
  rw [mem_sortedStr]
  exact List.mem_dedup

theorem nodup_sortedUnique (l : List String) : (sortedUnique l).Nodup :=
  (List.perm_insertionSort _ _).nodup_iff.mpr (List.nodup_dedup l)

theorem sortedUnique_ne_nil {l : List String} (h : l ≠ []) : sortedUnique l ≠ [] := by
  cases l with
  | nil => exact absurd rfl h
  | cons x xs =>
    intro he
    have hx : x ∈ sortedUnique (x :: xs) := mem_sortedUnique.mpr (List.mem_cons_self _ _)
    rw [he] at hx
    cases hx

theorem takeEveryAux_shift {α : Type} (n : Nat) :
    ∀ (c : Nat) (l : List α), takeEveryAux n c l = takeEvery n (l.drop c) := by
  intro c
  induction c with
  | zero => intro l; rw [List.drop_zero]; rfl
  | succ c ih =>
    intro l
    cases l with
    | nil => rfl
    | cons x xs => rw [List.drop_succ_cons, ← ih]; rfl

theorem takeEvery_cons {α : Type} (n : Nat) (x : α) (xs : List α) :
    takeEvery n (x :: xs) = x :: takeEvery n (xs.drop (n - 1)) := by
  show takeEveryAux n 0 (x :: xs) = _
  rw [show takeEveryAux n 0 (x :: xs) = x :: takeEveryAux n (n - 1) xs from rfl,
    takeEveryAux_shift]

theorem takeEveryAux_nil {α : Type} (n c : Nat) : takeEveryAux n c ([] : List α) = [] := by
  cases c <;> rfl

theorem mem_takeEveryAux {α : Type} {n : Nat} :
    ∀ {l : List α} {c : Nat} {x : α}, x ∈ takeEveryAux n c l → x ∈ l := by
  intro l
  induction l with
  | nil => intro c x h; rw [takeEveryAux_nil] at h; cases h
  | cons y ys ih =>
    intro c x h
    cases c with
    | zero =>
      rcases List.mem_cons.mp h with h | h
      · exact h ▸ List.mem_cons_self _ _
      · exact List.mem_cons_of_mem _ (ih h)
    | succ c => exact List.mem_cons_of_mem _ (ih h)

theorem mem_takeEvery {α : Type} {n : Nat} {l : List α} {x : α} (h : x ∈ takeEvery n l) :
    x ∈ l := mem_takeEveryAux h

theorem takeEvery_length_dvd {α : Type} {n : Nat} (hn : 1 ≤ n) :
    ∀ (l : List α), n ∣ l.length → (takeEvery n l).length = l.length / n := by
  suffices H : ∀ (N : Nat) (l : List α), l.length ≤ N → n ∣ l.length →
      (takeEvery n l).length = l.length / n by
    exact fun l => H l.length l le_rfl
  intro N
  induction N with
  | zero =>
    intro l hl _
    have hnil : l = [] := List.length_eq_zero.mp (Nat.le_zero.mp hl)
    subst hnil
    simp [takeEvery, takeEveryAux]
  | succ N ihN =>
    intro l hl hdvd
    cases l with
    | nil => simp [takeEvery, takeEveryAux]
    | cons x xs =>
      obtain ⟨q, hq⟩ := hdvd
      have hq1 : 1 ≤ q := by
        rcases Nat.eq_zero_or_pos q with h0 | h
        · rw [h0, Nat.mul_zero] at hq; cases hq
        · exact h
      obtain ⟨q', rfl⟩ : ∃ q', q = q' + 1 := ⟨q - 1, by omega⟩
      have hq' : n * (q' + 1) = n * q' + n := by ring
      have hxs : xs.length = n * q' + n - 1 := by
        have h1 : xs.length + 1 = n * (q' + 1) := by simpa using hq
        omega
      have hdl : (xs.drop (n - 1)).length = n * q' := by
        rw [List.length_drop]
        omega
      have hle : (xs.drop (n - 1)).length ≤ N := by
        have h2 : xs.length ≤ N := by simpa using Nat.succ_le_succ_iff.mp (by simpa using hl)
        rw [hdl]
        omega
      have hrec := ihN (xs.drop (n - 1)) hle (by rw [hdl]; exact dvd_mul_right n q')
      rw [takeEvery_cons, List.length_cons, hrec, hdl,
        Nat.mul_div_cancel_left q' (by omega : 0 < n)]
      have h3 : (x :: xs).length = n * (q' + 1) := hq
      rw [h3, Nat.mul_div_cancel_left (q' + 1) (by omega : 0 < n)]

theorem list_sum_map_add {γ M : Type} [AddCommMonoid M] (l : List γ) (f g : γ → M) :
    (l.map fun x => f x + g x).sum = (l.map f).sum + (l.map g).sum := by
  induction l with
  | nil => simp
  | cons a t ih => simp [ih, add_add_add_comm]

theorem list_sum_map_zero {γ : Type} (l : List γ) : (l.map fun _ => (0 : ℕ)).sum = 0 := by
  induction l with
  | nil => rfl
  | cons a t ih => simp [ih]

theorem single_ind_sum_zero (keys : List String) (b : String) (hb : b ∉ keys) :
    (keys.map fun x => if b = x then (1 : ℕ) else 0).sum = 0 := by
  induction keys with
  | nil => rfl
  | cons k ks ih =>
    have hbk : b ≠ k := fun he => hb (he ▸ List.mem_cons_self _ _)
    have hbs : b ∉ ks := fun hm => hb (List.mem_cons_of_mem _ hm)
    simp [hbk, ih hbs]

theorem single_ind_sum (keys : List String) (hnd : keys.Nodup) (b : String) (hb : b ∈ keys) :
    (keys.map fun x => if b = x then (1 : ℕ) else 0).sum = 1 := by
  induction keys with
  | nil => cases hb
  | cons k ks ih =>
    have hknotin : k ∉ ks := (List.nodup_cons.mp hnd).1
    by_cases hbk : b = k
    · subst hbk
      simp [single_ind_sum_zero ks b hknotin]
    · rcases List.mem_cons.mp hb with h | h
      · exact absurd h hbk
      · simp [hbk, ih (List.nodup_cons.mp hnd).2 h]

theorem inner_ind_sum (keys2 : List String) (h2 : keys2.Nodup) (p : String × String)
    (x : String) :
    (keys2.map fun y => if p = (x, y) then (1 : ℕ) else 0).sum
      = if p.1 = x ∧ p.2 ∈ keys2 then 1 else 0 := by
  induction keys2 with
  | nil => simp
  | cons k ks ih =>
    have hknotin : k ∉ ks := (List.nodup_cons.mp h2).1
    have ihs := ih (List.nodup_cons.mp h2).2
    by_cases hpk : p = (x, k)
    · subst hpk
      have hzero := single_ind_sum_zero ks k hknotin
      simp [Prod.mk.injEq, hzero]
    · have hhead : (if p = (x, k) then (1 : ℕ) else 0) = 0 := by simp [hpk]
      rw [List.map_cons, List.sum_cons, hhead, Nat.zero_add, ihs]
      by_cases hx : p.1 = x
      · by_cases hk : p.2 = k
        · exact absurd (Prod.ext hx hk) hpk
        · simp [hx, hk]
      · simp [hx]

theorem sum_count_pairs (keys1 keys2 : List String) (h1 : keys1.Nodup) (h2 : keys2.Nodup) :
    ∀ (L : List (String × String)), (∀ p ∈ L, p.1 ∈ keys1 ∧ p.2 ∈ keys2) →
      (keys1.map fun x => (keys2.map fun y => L.count (x, y)).sum).sum = L.length := by
  intro L
  induction L with
  | nil =>
    intro _
    have hinner : ∀ x : String, (keys2.map fun y => ([] : List (String × String)).count (x, y)).sum = 0 := by
      intro x
      rw [show (keys2.map fun y => ([] : List (String × String)).count (x, y)) =
        keys2.map fun _ => 0 from List.map_congr_left (fun y _ => List.count_nil _)]
      exact list_sum_map_zero keys2
    rw [List.map_congr_left (fun x _ => hinner x)]
    simp [list_sum_map_zero keys1]
  | cons p L ih =>
    intro hmem
    have hp := hmem p (List.mem_cons_self _ _)
    have hLm : ∀ q ∈ L, q.1 ∈ keys1 ∧ q.2 ∈ keys2 :=
      fun q hq => hmem q (List.mem_cons_of_mem _ hq)
    have hcount : ∀ x y : String,
        (p :: L).count (x, y) = L.count (x, y) + (if p = (x, y) then 1 else 0) := by
      intro x y
      rw [List.count_cons]
      congr 1
      by_cases h : p = (x, y)
      · simp [h]
      · simp [h, fun hb => h (beq_iff_eq.mp hb)]
    have hsplit : ∀ x : String,
        (keys2.map fun y => (p :: L).count (x, y)).sum
          = (keys2.map fun y => L.count (x, y)).sum
            + (keys2.map fun y => if p = (x, y) then 1 else 0).sum := by
      intro x
      rw [List.map_congr_left (fun y _ => hcount x y)]
      exact list_sum_map_add keys2 _ _
    rw [List.map_congr_left (fun x _ => hsplit x), list_sum_map_add, ih hLm]
    have hind : (keys1.map fun x =>
        (keys2.map fun y => if p = (x, y) then (1 : ℕ) else 0).sum).sum = 1 := by
      rw [List.map_congr_left (fun x _ => inner_ind_sum keys2 h2 p x)]
      have hpt : ∀ x : String, (if p.1 = x ∧ p.2 ∈ keys2 then (1 : ℕ) else 0)
          = if p.1 = x then 1 else 0 := by
        intro x
        by_cases hx : p.1 = x <;> simp [hx, hp.2]
      rw [List.map_congr_left (fun x _ => hpt x)]
      exact single_ind_sum keys1 h1 p.1 hp.1
    rw [hind, List.length_cons]

theorem cast_sum_map_q {γ : Type} (l : List γ) (f : γ → ℕ) :
    (((l.map f).sum : ℕ) : ℚ) = (l.map fun x => ((f x : ℕ) : ℚ)).sum := by
  induction l with
  | nil => simp
  | cons a t ih => simp [ih]

theorem sum_map_div_q {γ : Type} (l : List γ) (f : γ → ℚ) (s : ℚ) :
    (l.map fun x => f x / s).sum = (l.map f).sum / s := by
  induction l with
  | nil => simp
  | cons a t ih => simp [ih, add_div]

/-! ## Lemmas on the attribute table of filter_scenario -/

theorem lookupAttr_setAttr_ne (l : List (String × Option (List SRow))) (n m : String)
    (v : Option (List SRow)) (h : m ≠ n) :
    lookupAttr (setAttr l n v) m = lookupAttr l m := by
  induction l with
  | nil => rfl
  | cons p rest ih =>
    obtain ⟨pn, pv⟩ := p
    by_cases hpn : pn = n
    · subst hpn
      simp [setAttr, lookupAttr, Ne.symm h]
    · simp only [setAttr, if_neg hpn, lookupAttr]
      split <;> simp [ih]

theorem filterLoop_cons (sc : String) (name : String) (rest : List String)
    (st : FilterCaseStudy) :
    filterLoop sc (name :: rest) st =
      (filterStep sc st name).bind (filterLoop sc rest) := by
  show List.foldlM (filterStep sc) st (name :: rest) = _
  rw [List.foldlM_cons]
  cases filterStep sc st name <;> rfl

/-- The filter_scenario loop raises the scenario ValueError iff one of the
processed dataframes is a non-empty table that filters to empty; the state
may differ from cs outside the processed names. -/
theorem filterLoop_valueErr_iff (sc : String) (cs : FilterCaseStudy) :
    ∀ (names : List String) (st : FilterCaseStudy),
      names.Nodup →
      (∀ n ∈ names, lookupAttr st.attrs n = lookupAttr cs.attrs n) →
      (∀ n ∈ names, lookupAttr cs.attrs n ≠ some none) →
      ((∃ msg, filterLoop sc names st = Except.error (PyErr.valueErr msg)) ↔
        ∃ n ∈ names, emptiedAt cs sc n) := by
  intro names
  induction names with
  | nil =>
    intro st _ _ _
    constructor
    · intro ⟨msg, hmsg⟩
      exact absurd hmsg (by simp [filterLoop, List.foldlM, pure, Except.pure])
    · intro ⟨n, hn, _⟩
      cases hn
  | cons name rest ih =>
    intro st hnd hagree hclean
    have hndr : rest.Nodup := (List.nodup_cons.mp hnd).2
    have hnotin : name ∉ rest := (List.nodup_cons.mp hnd).1
    have hlook : lookupAttr st.attrs name = lookupAttr cs.attrs name :=
      hagree name (List.mem_cons_self _ _)
    rw [filterLoop_cons]
    cases hcs : lookupAttr cs.attrs name with
    | none =>
      have hstep : filterStep sc st name = Except.ok st := by
        unfold filterStep
        rw [hlook, hcs]
      rw [hstep]
      have := ih st hndr (fun n hn => hagree n (List.mem_cons_of_mem _ hn))
        (fun n hn => hclean n (List.mem_cons_of_mem _ hn))
      show (∃ msg, filterLoop sc rest st = Except.error (PyErr.valueErr msg)) ↔ _
      rw [this]
      constructor
      · intro ⟨n, hn, he⟩; exact ⟨n, List.mem_cons_of_mem _ hn, he⟩
      · intro ⟨n, hn, he⟩
        rcases List.mem_cons.mp hn with hn | hn
        · exfalso; obtain ⟨df, hdf, _⟩ := he; rw [hn, hcs] at hdf; cases hdf
        · exact ⟨n, hn, he⟩
    | some slot =>
      cases slot with
      | none => exact absurd hcs (hclean name (List.mem_cons_self _ _))
      | some df =>
        have hunfold : filterStep sc st name =
            (if df.length > 0 ∧ (df.filter fun r => r.scenario = sc).length = 0 then
              Except.error (PyErr.valueErr ("Scenario not found in " ++ name))
            else
              Except.ok (FilterCaseStudy.mk (setAttr st.attrs name
                (some (df.filter fun r => r.scenario = sc))))) := by
          unfold filterStep
          rw [hlook, hcs]
        by_cases hbad : df.length > 0 ∧ (df.filter fun r => r.scenario = sc).length = 0
        · rw [hunfold, if_pos hbad]
          show (∃ msg, Except.error (PyErr.valueErr _) = Except.error (PyErr.valueErr msg)) ↔ _
          constructor
          · intro _
            refine ⟨name, List.mem_cons_self _ _, df, hcs, ?_, ?_⟩
            · intro hdf; rw [hdf] at hbad; simp at hbad
            · exact List.length_eq_zero.mp hbad.2
          · intro _; exact ⟨_, rfl⟩
        · rw [hunfold, if_neg hbad]
          have hagree2 : ∀ n ∈ rest,
              lookupAttr (setAttr st.attrs name (some (df.filter fun r => r.scenario = sc))) n =
              lookupAttr cs.attrs n := by
            intro n hn
            have hne : n ≠ name := fun he => hnotin (he ▸ hn)
            rw [lookupAttr_setAttr_ne _ _ _ _ hne]
            exact hagree n (List.mem_cons_of_mem _ hn)
          have := ih _ hndr hagree2 (fun n hn => hclean n (List.mem_cons_of_mem _ hn))
          show (∃ msg, filterLoop sc rest _ = Except.error (PyErr.valueErr msg)) ↔ _
          rw [this]
          constructor
          · intro ⟨n, hn, he⟩; exact ⟨n, List.mem_cons_of_mem _ hn, he⟩
          · intro ⟨n, hn, he⟩
            rcases List.mem_cons.mp hn with hn | hn
            · exfalso
              obtain ⟨df2, hdf2, hne2, hfil2⟩ := he
              rw [hn, hcs] at hdf2
              cases hdf2
              exact hbad ⟨List.length_pos.mpr hne2, by rw [hfil2]; rfl⟩
            · exact ⟨n, hn, he⟩

/-- On success the filter_scenario loop leaves every attribute outside the
processed names unchanged. -/
theorem filterLoop_ok_untouched (sc : String) :
    ∀ (names : List String) (st res : FilterCaseStudy),
      filterLoop sc names st = Except.ok res →
      ∀ name, name ∉ names → lookupAttr res.attrs name = lookupAttr st.attrs name := by
  intro names
  induction names with
  | nil =>
    intro st res hok name _
    simp only [filterLoop, List.foldlM, pure, Except.pure, Except.ok.injEq] at hok
    rw [hok]
  | cons hd rest ih =>
    intro st res hok name hname
    rw [filterLoop_cons] at hok
    have hnehd : name ≠ hd := fun he => hname (he ▸ List.mem_cons_self _ _)
    have hnerest : name ∉ rest := fun hn => hname (List.mem_cons_of_mem _ hn)
    cases hstep : filterStep sc st hd with
    | error e => rw [hstep] at hok; cases hok
    | ok st2 =>
      rw [hstep] at hok
      have h2 := ih st2 res hok name hnerest
      rw [h2]
      unfold filterStep at hstep
      split at hstep
      · cases hstep; rfl
      · cases hstep
      · split at hstep
        · cases hstep
        · cases hstep
          exact lookupAttr_setAttr_ne _ _ _ _ hnehd

/-! ## Claims C1 and C9 -/

/-- C1: for a CaseStudy with a scenario present, filter_scenario with
inplace = False is claimed to return a fresh independent CaseStudy whose
scenario-dependent tables are restricted to the scenario while leaving the
original untouched.  The code does the opposite: the loop filters the
attributes of self (getattr/setattr on self at lines 717/724) and returns
the unfiltered deep copy made at line 713.  At the concrete input
csFilterBug, the call mutates the original to csFilterBugFiltered and hands
back a copy equal to the unfiltered original (whose demand table still
holds both scenarios); the sibling methods filter_timesteps and
filter_representative_periods use the copy throughout, so this is a slip in
the code, not intent. -/
theorem C1_filter_scenario_mutates_self_returns_unfiltered_copy :
    filter_scenario csFilterBug "ScenarioA" false =
      Except.ok (csFilterBugFiltered, some csFilterBug) ∧
    lookupAttr csFilterBug.attrs "dPower_Demand" =
      some (some [SRow.mk "ScenarioA" 0, SRow.mk "ScenarioB" 1]) ∧
    csFilterBugFiltered ≠ csFilterBug := by
  refine ⟨by decide, by decide, by decide⟩

/-- C9 counterexample: the claim "filter_scenario raises a ValueError iff
some scenario-dependent table that was non-empty becomes empty" fails on a
CaseStudy whose dPower_ImpExpProfiles attribute holds Python None (the state
the constructor leaves when pEnablePowerImportExport is off, lines 208-209):
the call dies on None with an attribute error before reaching the non-empty
dPower_BusInfo that filters to empty, so no ValueError is raised although
the right-hand side of the iff holds. -/
theorem C9_counterexample :
    ¬ ((isScenarioValueError (filter_scenario csFilterNone "ScenarioA" false) = true) ↔
        ∃ n ∈ scenario_dependent_dataframes, emptiedAt csFilterNone "ScenarioA" n) := by
  intro h
  have hex : ∃ n ∈ scenario_dependent_dataframes, emptiedAt csFilterNone "ScenarioA" n :=
    ⟨"dPower_BusInfo", by decide, [SRow.mk "ScenarioB" 1], by decide, by decide, by decide⟩
  exact absurd (h.2 hex) (by decide)

theorem filter_scenario_eq (cs : FilterCaseStudy) (sc : String) (inplace : Bool) :
    filter_scenario cs sc inplace =
      (filterLoop sc scenario_dependent_dataframes cs).bind
        (fun final => Except.ok (final, if inplace then none else some cs)) := by
  unfold filter_scenario
  cases filterLoop sc scenario_dependent_dataframes cs <;> rfl

/-- C9 amended: provided every scenario-dependent attribute that exists holds
an actual table rather than Python None, filter_scenario raises the scenario
ValueError iff some scenario-dependent table that was non-empty before
filtering becomes empty after restricting to the scenario, and on success
every attribute whose name is outside the scenario-dependent list — in
particular the non-dependent tables — is untouched in both the mutated
instance and the returned copy. -/
theorem C9_amended (cs : FilterCaseStudy) (sc : String) (inplace : Bool)
    (hclean : ∀ n ∈ scenario_dependent_dataframes, lookupAttr cs.attrs n ≠ some none) :
    ((∃ msg, filter_scenario cs sc inplace = Except.error (PyErr.valueErr msg)) ↔
      ∃ n ∈ scenario_dependent_dataframes, emptiedAt cs sc n) ∧
    (∀ res, filter_scenario cs sc inplace = Except.ok res →
      ∀ name, name ∉ scenario_dependent_dataframes →
        lookupAttr res.1.attrs name = lookupAttr cs.attrs name ∧
        ∀ c, res.2 = some c → lookupAttr c.attrs name = lookupAttr cs.attrs name) := by
  have hnd : scenario_dependent_dataframes.Nodup := by decide
  constructor
  · rw [← filterLoop_valueErr_iff sc cs scenario_dependent_dataframes cs hnd
      (fun _ _ => rfl) hclean]
    rw [filter_scenario_eq]
    cases hloop : filterLoop sc scenario_dependent_dataframes cs with
    | error e =>
      constructor
      · intro ⟨msg, hmsg⟩
        cases hmsg
        exact ⟨_, rfl⟩
      · intro ⟨msg, hmsg⟩
        cases hmsg
        exact ⟨_, rfl⟩
    | ok fin =>
      constructor
      · intro ⟨msg, hmsg⟩; cases hmsg
      · intro ⟨msg, hmsg⟩; cases hmsg
  · intro res hok name hname
    rw [filter_scenario_eq] at hok
    cases hloop : filterLoop sc scenario_dependent_dataframes cs with
    | error e => rw [hloop] at hok; cases hok
    | ok fin =>
      rw [hloop] at hok
      cases hok
      refine ⟨filterLoop_ok_untouched sc _ cs fin hloop name hname, ?_⟩
      intro c hc
      cases inplace with
      | false => simp at hc; rw [← hc]
      | true => simp at hc

/-- Closed witness for C9_amended at csFilterBug, scenario ScenarioA: the
hypothesis (no None attribute) holds and the amended property follows. -/
theorem C9_amended_witness :
    (∀ n ∈ scenario_dependent_dataframes, lookupAttr csFilterBug.attrs n ≠ some none) ∧
    (((∃ msg, filter_scenario csFilterBug "ScenarioA" false =
        Except.error (PyErr.valueErr msg)) ↔
      ∃ n ∈ scenario_dependent_dataframes, emptiedAt csFilterBug "ScenarioA" n) ∧
    (∀ res, filter_scenario csFilterBug "ScenarioA" false = Except.ok res →
      ∀ name, name ∉ scenario_dependent_dataframes →
        lookupAttr res.1.attrs name = lookupAttr csFilterBug.attrs name ∧
        ∀ c, res.2 = some c →
          lookupAttr c.attrs name = lookupAttr csFilterBug.attrs name)) :=
  ⟨by decide, C9_amended csFilterBug "ScenarioA" false (by decide)⟩

/-! ## Lemmas on get_rpTransitionMatrices -/

theorem count_cons_eq {α : Type} [BEq α] [LawfulBEq α] [DecidableEq α] (p a : α) (L : List α) :
    (p :: L).count a = L.count a + (if p = a then 1 else 0) := by
  rw [List.count_cons]
  congr 1
  by_cases hh : p = a
  · simp [hh]
  · simp [hh, fun hb => hh (beq_iff_eq.mp hb)]

theorem mk_rps (rps : List String) (abs : String → String → Nat) :
    (mkTransitionMatrices rps abs).rps = rps := rfl

theorem mk_absolute (rps : List String) (abs : String → String → Nat) :
    (mkTransitionMatrices rps abs).absolute = abs := rfl

theorem mk_relativeTo (rps : List String) (abs : String → String → Nat) (x y : String) :
    (mkTransitionMatrices rps abs).relativeTo x y =
      if rowSumAbs rps abs x = 0 then none
      else some ((abs x y : ℚ) / (rowSumAbs rps abs x : ℚ)) := rfl

theorem mk_relativeFrom (rps : List String) (abs : String → String → Nat) (x y : String) :
    (mkTransitionMatrices rps abs).relativeFrom x y =
      if colSumAbs rps abs y = 0 then none
      else some ((abs x y : ℚ) / (colSumAbs rps abs y : ℚ)) := rfl

theorem getRp_none_ok (h : List HindexRow) (m : TransitionMatrices)
    (hok : get_rpTransitionMatrices h "none" 0 = Except.ok m) :
    h ≠ [] ∧ m = mkTransitionMatrices (hindexRps h) (absCount h) := by
  unfold get_rpTransitionMatrices at hok
  by_cases hemp : h.isEmpty = true
  · rw [if_pos hemp] at hok; cases hok
  · rw [if_neg hemp, if_pos rfl] at hok
    cases hok
    exact ⟨by simpa using hemp, rfl⟩

theorem getRp_abs_ok (h : List HindexRow) (cv : ℚ) (m : TransitionMatrices)
    (hok : get_rpTransitionMatrices h "absolute_count" cv = Except.ok m) :
    h ≠ [] ∧ ¬(cv.den ≠ 1 ∨ cv < 0) ∧
      m = mkTransitionMatrices (hindexRps h)
        (clipAbsoluteCount (hindexRps h) (absCount h) cv.num.toNat) := by
  unfold get_rpTransitionMatrices at hok
  by_cases hemp : h.isEmpty = true
  · rw [if_pos hemp] at hok; cases hok
  · rw [if_neg hemp, if_neg (by decide : ¬("absolute_count" : String) = "none"),
      if_pos rfl] at hok
    by_cases hcv : cv.den ≠ 1 ∨ cv < 0
    · rw [if_pos hcv] at hok; cases hok
    · rw [if_neg hcv] at hok
      cases hok
      exact ⟨by simpa using hemp, hcv, rfl⟩

theorem getRp_shape (h : List HindexRow) (cm : String) (cv : ℚ) (m : TransitionMatrices)
    (hok : get_rpTransitionMatrices h cm cv = Except.ok m) :
    h ≠ [] ∧ ∃ abs, m = mkTransitionMatrices (hindexRps h) abs := by
  unfold get_rpTransitionMatrices at hok
  by_cases hemp : h.isEmpty = true
  · rw [if_pos hemp] at hok; cases hok
  · rw [if_neg hemp] at hok
    refine ⟨by simpa using hemp, ?_⟩
    by_cases h1 : cm = "none"
    · rw [if_pos h1] at hok; cases hok; exact ⟨_, rfl⟩
    · rw [if_neg h1] at hok
      by_cases h2 : cm = "absolute_count"
      · rw [if_pos h2] at hok
        by_cases hcv : cv.den ≠ 1 ∨ cv < 0
        · rw [if_pos hcv] at hok; cases hok
        · rw [if_neg hcv] at hok; cases hok; exact ⟨_, rfl⟩
      · rw [if_neg h2] at hok
        by_cases h3 : cm = "relative_to_highest"
        · rw [if_pos h3] at hok
          by_cases hcv : cv < 0 ∨ 1 < cv
          · rw [if_pos hcv] at hok; cases hok
          · rw [if_neg hcv] at hok; cases hok; exact ⟨_, rfl⟩
        · rw [if_neg h3] at hok; cases hok

/-! ## Claim C5 -/

/-- C5: every transition-matrix triple produced by get_rpTransitionMatrices
(after any clipping) has row-stochastic RelativeTo rows — each row of
RelativeTo sums to 1, and every cell of it is defined — except that a row
whose absolute row sum is 0 is entirely NaN (none) instead of raising;
symmetrically each column of RelativeFrom sums to 1 or is entirely NaN when
the absolute column sum is 0. -/
theorem C5_relative_matrices_normalized (h : List HindexRow) (cm : String) (cv : ℚ)
    (m : TransitionMatrices)
    (hok : get_rpTransitionMatrices h cm cv = Except.ok m) (x : String) :
    (rowSumAbs m.rps m.absolute x ≠ 0 →
      (m.rps.map fun y => (m.relativeTo x y).getD 0).sum = 1 ∧
      ∀ y, (m.relativeTo x y).isSome) ∧
    (rowSumAbs m.rps m.absolute x = 0 → ∀ y, m.relativeTo x y = none) ∧
    (colSumAbs m.rps m.absolute x ≠ 0 →
      (m.rps.map fun y => (m.relativeFrom y x).getD 0).sum = 1 ∧
      ∀ y, (m.relativeFrom y x).isSome) ∧
    (colSumAbs m.rps m.absolute x = 0 → ∀ y, m.relativeFrom y x = none) := by
  obtain ⟨-, abs, rfl⟩ := getRp_shape h cm cv m hok
  rw [mk_rps, mk_absolute]
  set rps := hindexRps h with hrps
  refine ⟨?_, ?_, ?_, ?_⟩
  · intro hs
    constructor
    · have hpt : ∀ y, ((mkTransitionMatrices rps abs).relativeTo x y).getD 0
          = (abs x y : ℚ) / (rowSumAbs rps abs x : ℚ) := by
        intro y
        rw [mk_relativeTo, if_neg hs]
        rfl
      rw [List.map_congr_left fun y _ => hpt y, sum_map_div_q]
      have hcast : (rps.map fun y => ((abs x y : ℕ) : ℚ)).sum
          = ((rowSumAbs rps abs x : ℕ) : ℚ) := (cast_sum_map_q rps (abs x)).symm
      rw [hcast, div_self (Nat.cast_ne_zero.mpr hs)]
    · intro y
      rw [mk_relativeTo, if_neg hs]
      rfl
  · intro hs y
    rw [mk_relativeTo, if_pos hs]
  · intro hs
    constructor
    · have hpt : ∀ y, ((mkTransitionMatrices rps abs).relativeFrom y x).getD 0
          = (abs y x : ℚ) / (colSumAbs rps abs x : ℚ) := by
        intro y
        rw [mk_relativeFrom, if_neg hs]
        rfl
      rw [List.map_congr_left fun y _ => hpt y, sum_map_div_q]
      have hcast : (rps.map fun y => ((abs y x : ℕ) : ℚ)).sum
          = ((colSumAbs rps abs x : ℕ) : ℚ) := (cast_sum_map_q rps (abs · x)).symm
      rw [hcast, div_self (Nat.cast_ne_zero.mpr hs)]
    · intro y
      rw [mk_relativeFrom, if_neg hs]
      rfl
  · intro hs y
    rw [mk_relativeFrom, if_pos hs]

/-- Closed witness for C5 at the concrete four-row Hindex: the rp1 row of
RelativeTo sums to 1. -/
theorem C5_relative_matrices_normalized_witness :
    ((mkTransitionMatrices (hindexRps hindexFour) (absCount hindexFour)).rps.map
      fun y => ((mkTransitionMatrices (hindexRps hindexFour)
        (absCount hindexFour)).relativeTo "rp1" y).getD 0).sum = 1 :=
  ((C5_relative_matrices_normalized hindexFour "none" 0 _ rfl "rp1").1 (by decide)).1

/-! ## Claim C4 -/

/-- C4: a time-index table whose per-block rp sequence is rp1, rp2, rp1, rp2
(and whose rp column holds no other label) yields, under clip_method none,
the circular absolute transition matrix with 2 at (rp1, rp2) and (rp2, rp1)
and 0 elsewhere, and both normalized matrices equal to 1 in those two cells
and 0 elsewhere. -/
theorem C4_alternating_sequence_matrices (h : List HindexRow) (m : TransitionMatrices)
    (rp1 rp2 : String) (hne : rp1 ≠ rp2)
    (hseq : blockRps h = [rp1, rp2, rp1, rp2])
    (hcol : ∀ r ∈ hindexRpColumn h, r = rp1 ∨ r = rp2)
    (hok : get_rpTransitionMatrices h "none" 0 = Except.ok m) :
    m.absolute rp1 rp2 = 2 ∧ m.absolute rp2 rp1 = 2 ∧
    (∀ x ∈ m.rps, ∀ y ∈ m.rps, ¬(x = rp1 ∧ y = rp2) → ¬(x = rp2 ∧ y = rp1) →
      m.absolute x y = 0) ∧
    m.relativeTo rp1 rp2 = some 1 ∧ m.relativeTo rp2 rp1 = some 1 ∧
    m.relativeFrom rp1 rp2 = some 1 ∧ m.relativeFrom rp2 rp1 = some 1 ∧
    (∀ x ∈ m.rps, ∀ y ∈ m.rps, ¬(x = rp1 ∧ y = rp2) → ¬(x = rp2 ∧ y = rp1) →
      m.relativeTo x y = some 0 ∧ m.relativeFrom x y = some 0) := by
  obtain ⟨-, rfl⟩ := getRp_none_ok h m hok
  have htr : circularTransitions (blockRps h) = [(rp2, rp1), (rp1, rp2), (rp2, rp1), (rp1, rp2)] := by
    rw [hseq]; rfl
  have habs : ∀ x y, absCount h x y
      = ([(rp2, rp1), (rp1, rp2), (rp2, rp1), (rp1, rp2)]).count (x, y) := by
    intro x y; unfold absCount; rw [htr]
  have hcv : ∀ x y : String, ([(rp2, rp1), (rp1, rp2), (rp2, rp1), (rp1, rp2)]).count (x, y)
      = (if (rp2, rp1) = (x, y) then 1 else 0) + (if (rp1, rp2) = (x, y) then 1 else 0)
        + (if (rp2, rp1) = (x, y) then 1 else 0) + (if (rp1, rp2) = (x, y) then 1 else 0) := by
    intro x y
    rw [count_cons_eq, count_cons_eq, count_cons_eq, count_cons_eq, List.count_nil]
    omega
  have h12 : absCount h rp1 rp2 = 2 := by
    rw [habs, hcv]
    simp [Prod.mk.injEq, hne, Ne.symm hne]
  have h21 : absCount h rp2 rp1 = 2 := by
    rw [habs, hcv]
    simp [Prod.mk.injEq, hne, Ne.symm hne]
  have hz : ∀ x y : String, ¬(x = rp1 ∧ y = rp2) → ¬(x = rp2 ∧ y = rp1) →
      absCount h x y = 0 := by
    intro x y hxy1 hxy2
    rw [habs, hcv]
    have e1 : ¬((rp2, rp1) = (x, y)) := by
      intro he
      exact hxy2 ⟨(Prod.mk.injEq _ _ _ _ ▸ he).1.symm, (Prod.mk.injEq _ _ _ _ ▸ he).2.symm⟩
    have e2 : ¬((rp1, rp2) = (x, y)) := by
      intro he
      exact hxy1 ⟨(Prod.mk.injEq _ _ _ _ ▸ he).1.symm, (Prod.mk.injEq _ _ _ _ ▸ he).2.symm⟩
    simp [e1, e2]
  have h1col : rp1 ∈ hindexRpColumn h := by
    apply mem_takeEvery (n := (hindexKs h).length)
    show rp1 ∈ blockRps h
    rw [hseq]; simp
  have h2col : rp2 ∈ hindexRpColumn h := by
    apply mem_takeEvery (n := (hindexKs h).length)
    show rp2 ∈ blockRps h
    rw [hseq]; simp
  have hperm : List.Perm (hindexRps h) [rp1, rp2] := by
    apply (List.perm_ext_iff_of_nodup (nodup_sortedUnique _) (by simp [hne])).2
    intro a
    show a ∈ sortedUnique (hindexRpColumn h) ↔ _
    rw [mem_sortedUnique]
    constructor
    · intro ha; rcases hcol a ha with ha | ha <;> simp [ha]
    · intro ha
      rcases List.mem_cons.mp ha with ha | ha
      · exact ha ▸ h1col
      · rcases List.mem_cons.mp ha with ha | ha
        · exact ha ▸ h2col
        · cases ha
  have hsum2 : ∀ f : String → ℕ, ((hindexRps h).map f).sum = f rp1 + f rp2 := by
    intro f
    have := (hperm.map f).sum_eq
    simpa using this
  have hd11 : absCount h rp1 rp1 = 0 := hz rp1 rp1 (fun hc => hne hc.2) (fun hc => hne hc.1)
  have hd22 : absCount h rp2 rp2 = 0 :=
    hz rp2 rp2 (fun hc => hne hc.1.symm) (fun hc => hne hc.2.symm)
  have hmem2 : ∀ x ∈ hindexRps h, x = rp1 ∨ x = rp2 := by
    intro x hx
    exact hcol x (mem_sortedUnique.mp hx)
  have hrow : ∀ x ∈ hindexRps h, rowSumAbs (hindexRps h) (absCount h) x = 2 := by
    intro x hx
    show ((hindexRps h).map (absCount h x)).sum = 2
    rcases hmem2 x hx with rfl | rfl
    · rw [hsum2, hd11, h12]
    · rw [hsum2, h21, hd22]
  have hcolsum : ∀ y ∈ hindexRps h, colSumAbs (hindexRps h) (absCount h) y = 2 := by
    intro y hy
    show ((hindexRps h).map fun x => absCount h x y).sum = 2
    rcases hmem2 y hy with rfl | rfl
    · rw [hsum2, hd11, h21]
    · rw [hsum2, h12, hd22]
  have hmem1 : rp1 ∈ hindexRps h := mem_sortedUnique.mpr h1col
  have hmem2r : rp2 ∈ hindexRps h := mem_sortedUnique.mpr h2col
  have hone : ∀ x y, absCount h x y = 2 →
      rowSumAbs (hindexRps h) (absCount h) x = 2 →
      (mkTransitionMatrices (hindexRps h) (absCount h)).relativeTo x y = some 1 := by
    intro x y ha hr
    rw [mk_relativeTo, if_neg (by rw [hr]; omega), ha, hr]
    norm_num
  have honeF : ∀ x y, absCount h x y = 2 →
      colSumAbs (hindexRps h) (absCount h) y = 2 →
      (mkTransitionMatrices (hindexRps h) (absCount h)).relativeFrom x y = some 1 := by
    intro x y ha hc
    rw [mk_relativeFrom, if_neg (by rw [hc]; omega), ha, hc]
    norm_num
  refine ⟨h12, h21, ?_, hone rp1 rp2 h12 (hrow rp1 hmem1), hone rp2 rp1 h21 (hrow rp2 hmem2r),
    honeF rp1 rp2 h12 (hcolsum rp2 hmem2r), honeF rp2 rp1 h21 (hcolsum rp1 hmem1), ?_⟩
  · intro x hx y hy hxy1 hxy2
    exact hz x y hxy1 hxy2
  · intro x hx y hy hxy1 hxy2
    have hzero := hz x y hxy1 hxy2
    constructor
    · rw [mk_relativeTo, if_neg (by rw [hrow x hx]; omega), hzero, hrow x hx]
      norm_num
    · rw [mk_relativeFrom, if_neg (by rw [hcolsum y hy]; omega), hzero, hcolsum y hy]
      norm_num

/-- Closed witness for C4 at the concrete four-row Hindex with labels rp1 and
rp2. -/
theorem C4_alternating_sequence_matrices_witness :
    (mkTransitionMatrices (hindexRps hindexFour) (absCount hindexFour)).absolute "rp1" "rp2" = 2 ∧
    (mkTransitionMatrices (hindexRps hindexFour)
      (absCount hindexFour)).relativeTo "rp1" "rp2" = some 1 := by
  have hthm := C4_alternating_sequence_matrices hindexFour _ "rp1" "rp2"
    (by decide) (by decide) (by decide) rfl
  exact ⟨hthm.1, hthm.2.2.2.1⟩

/-! ## Claim C6 -/

theorem listMin?_cons (a : ℕ) (t : List ℕ) :
    listMin? (a :: t) = match listMin? t with
      | none => some a
      | some m => some (min a m) := by
  simp only [listMin?]
  cases listMin? t <;> rfl

/-- For a list sorted in descending order, the minimum of its first cv
elements is the element at index min cv length - 1 (for cv ≥ 1). -/
theorem listMin?_take_sorted :
    ∀ (l : List ℕ), List.Sorted (· ≥ ·) l → ∀ cv : ℕ, 1 ≤ cv → l ≠ [] →
      listMin? (l.take cv) = some (l.getD (min cv l.length - 1) 0) := by
  intro l
  induction l with
  | nil => intro _ cv _ hl; exact absurd rfl hl
  | cons a t ih =>
    intro hs cv hcv _
    obtain ⟨c, rfl⟩ : ∃ c, cv = c + 1 := ⟨cv - 1, by omega⟩
    cases t with
    | nil =>
      rw [show List.take (c + 1) [a] = [a] from by simp]
      rw [show min (c + 1) ([a] : List ℕ).length - 1 = 0 from by simp]
      rfl
    | cons b t2 =>
      have hatail : ∀ x ∈ b :: t2, a ≥ x := (List.sorted_cons.mp hs).1
      have hs2 : List.Sorted (· ≥ ·) (b :: t2) := (List.sorted_cons.mp hs).2
      cases c with
      | zero =>
        rw [show List.take 1 (a :: b :: t2) = [a] from rfl]
        rw [show min 1 (a :: b :: t2).length - 1 = 0 from by simp]
        rfl
      | succ c' =>
        rw [List.take_succ_cons, listMin?_cons, ih hs2 (c' + 1) (by omega) (by simp)]
        have hlt : min (c' + 1) (b :: t2).length - 1 < (b :: t2).length := by
          simp only [List.length_cons]
          omega
        have hmem : (b :: t2).getD (min (c' + 1) (b :: t2).length - 1) 0 ∈ (b :: t2) := by
          rw [List.getD_eq_getElem _ _ hlt]
          exact List.getElem_mem hlt
        show some (min a _) = _
        rw [min_eq_right (hatail _ hmem)]
        congr 1
        have hidx : min (c' + 2) ((a :: b :: t2)).length - 1
            = (min (c' + 1) ((b :: t2)).length - 1) + 1 := by
          simp only [List.length_cons]
          omega
        rw [hidx, List.getD_cons_succ]

/-- C6: for every non-negative integer clip_value, clip_method
absolute_count keeps, in each matrix row, exactly the entries that are at
least the clip_value-th largest value of that row (counting duplicates,
clamped to the row length) and zeroes the rest — so entries tied at the
threshold all survive — while clip_value = 0 leaves every entry in place
(pandas nlargest(0).min() is NaN and the comparison keeps everything). -/
theorem C6_absolute_count_keeps_top_entries (h : List HindexRow) (cv : ℕ)
    (m : TransitionMatrices)
    (hok : get_rpTransitionMatrices h "absolute_count" (cv : ℚ) = Except.ok m)
    (x y : String) (hx : x ∈ m.rps) (hy : y ∈ m.rps) :
    (1 ≤ cv → m.absolute x y =
      if kthLargest cv (rowOf m.rps (absCount h) x) ≤ absCount h x y then absCount h x y
      else 0) ∧
    (cv = 0 → m.absolute x y = absCount h x y) := by
  obtain ⟨hnil, -, rfl⟩ := getRp_abs_ok h (cv : ℚ) m hok
  rw [mk_rps] at hx hy
  rw [mk_rps, mk_absolute]
  have hnum : ((cv : ℚ)).num.toNat = cv := by simp
  rw [hnum]
  set row := rowOf (hindexRps h) (absCount h) x with hrow
  have hrow_ne : row ≠ [] := by
    rw [hrow]
    unfold rowOf
    intro he
    have := List.length_pos_of_mem hx
    rw [← List.length_map (hindexRps h) (absCount h x), he] at this
    cases this
  have hsorted := List.sorted_insertionSort (· ≥ ·) row
  have hperm := List.perm_insertionSort (· ≥ ·) row
  have hsne : row.insertionSort (· ≥ ·) ≠ [] := by
    intro he
    apply hrow_ne
    have hlen := hperm.length_eq
    rw [he] at hlen
    exact List.length_eq_zero.mp hlen.symm
  constructor
  · intro hcv1
    show clipAbsoluteCount (hindexRps h) (absCount h) cv x y = _
    unfold clipAbsoluteCount
    rw [if_pos hx]
    unfold clipRowAbsoluteCount nlargestMin
    rw [listMin?_take_sorted _ hsorted cv hcv1 hsne]
    show (if absCount h x y < (row.insertionSort (· ≥ ·)).getD
        (min cv (row.insertionSort (· ≥ ·)).length - 1) 0 then 0 else absCount h x y) = _
    rw [show (row.insertionSort (· ≥ ·)).length = row.length from hperm.length_eq]
    by_cases hc : absCount h x y < kthLargest cv row
    · rw [if_pos ?hlt, if_neg (by omega)]
      case hlt => exact hc
    · rw [if_neg ?hge, if_pos (by omega)]
      case hge => exact hc
  · intro hcv0
    subst hcv0
    show clipAbsoluteCount (hindexRps h) (absCount h) 0 x y = _
    unfold clipAbsoluteCount
    rw [if_pos hx]
    rfl

/-- Closed witness for C6 at the concrete four-row Hindex with
clip_value 1. -/
theorem C6_absolute_count_keeps_top_entries_witness :
    (mkTransitionMatrices (hindexRps hindexFour)
        (clipAbsoluteCount (hindexRps hindexFour) (absCount hindexFour)
          ((1 : ℚ)).num.toNat)).absolute "rp1" "rp2" =
      if kthLargest 1 (rowOf (mkTransitionMatrices (hindexRps hindexFour)
            (clipAbsoluteCount (hindexRps hindexFour) (absCount hindexFour)
              ((1 : ℚ)).num.toNat)).rps (absCount hindexFour) "rp1")
          ≤ absCount hindexFour "rp1" "rp2" then absCount hindexFour "rp1" "rp2"
      else 0 :=
  (C6_absolute_count_keeps_top_entries hindexFour 1 _ rfl "rp1" "rp2"
    (by decide) (by decide)).1 (by decide)

/-! ## Claim C10 -/

/-- C10: for a Hindex whose row count is a multiple of the number of
distinct k labels, the total sum of the (unclipped) absolute transition
matrix over its rps × rps cells equals the number of rp blocks — row count
divided by the number of distinct k labels — since the circular counting
assigns exactly one outgoing transition to every block.  (Entries are
naturals, hence non-negative by construction.) -/
theorem C10_absolute_matrix_total_sum (h : List HindexRow) (m : TransitionMatrices)
    (hdvd : (hindexKs h).length ∣ h.length)
    (hok : get_rpTransitionMatrices h "none" 0 = Except.ok m) :
    (m.rps.map fun x => (m.rps.map fun y => m.absolute x y).sum).sum
      = h.length / (hindexKs h).length := by
  obtain ⟨hnil, rfl⟩ := getRp_none_ok h m hok
  rw [mk_rps, mk_absolute]
  have hbr_ne : blockRps h ≠ [] := by
    cases h with
    | nil => exact absurd rfl hnil
    | cons r hs =>
      show takeEvery _ (hindexRpColumn (r :: hs)) ≠ []
      rw [show hindexRpColumn (r :: hs) = r.rp :: hindexRpColumn hs from rfl, takeEvery_cons]
      simp
  obtain ⟨lastRp, hlast⟩ : ∃ a, (blockRps h).getLast? = some a := by
    rcases hbl : blockRps h with _ | ⟨a, t⟩
    · exact absurd hbl hbr_ne
    · exact ⟨(a :: t).getLast (by simp), List.getLast?_eq_getLast _ (by simp)⟩
  have hT_eq : circularTransitions (blockRps h)
      = (lastRp :: (blockRps h).dropLast).zip (blockRps h) := by
    unfold circularTransitions
    rw [hlast]
  have hmemT : ∀ p ∈ circularTransitions (blockRps h),
      p.1 ∈ hindexRps h ∧ p.2 ∈ hindexRps h := by
    intro p hp
    rw [hT_eq] at hp
    obtain ⟨p1, p2⟩ := p
    have hz := List.of_mem_zip hp
    have hchain : ∀ a : String, a ∈ blockRps h → a ∈ hindexRps h := by
      intro a ha
      exact mem_sortedUnique.mpr (mem_takeEvery ha)
    constructor
    · rcases List.mem_cons.mp hz.1 with h1 | h1
      · exact h1 ▸ hchain _ (mem_of_getLast?_eq hlast)
      · exact hchain _ (List.dropLast_subset _ h1)
    · exact hchain _ hz.2
  have hnodup := nodup_sortedUnique (hindexRpColumn h)
  have hsum := sum_count_pairs (hindexRps h) (hindexRps h) hnodup hnodup
    (circularTransitions (blockRps h)) hmemT
  have hgoal : ((hindexRps h).map fun x => ((hindexRps h).map fun y =>
      absCount h x y).sum).sum = (circularTransitions (blockRps h)).length := by
    rw [← hsum]
    rfl
  rw [hgoal]
  have hTlen : (circularTransitions (blockRps h)).length = (blockRps h).length := by
    rw [hT_eq, List.length_zip]
    have h1 : 1 ≤ (blockRps h).length := List.length_pos.mpr hbr_ne
    simp only [List.length_cons, List.length_dropLast]
    omega
  rw [hTlen]
  have hks_pos : 1 ≤ (hindexKs h).length := by
    apply List.length_pos.mpr
    apply sortedUnique_ne_nil
    cases h with
    | nil => exact absurd rfl hnil
    | cons r hs => simp [hindexKColumn]
  have hcol_len : (hindexRpColumn h).length = h.length := List.length_map _ _
  have hbl := takeEvery_length_dvd hks_pos (hindexRpColumn h) (by rw [hcol_len]; exact hdvd)
  show (takeEvery (hindexKs h).length (hindexRpColumn h)).length = _
  rw [hbl, hcol_len]

/-- Closed witness for C10 at the concrete four-row Hindex: the matrix total
is 4 blocks. -/
theorem C10_absolute_matrix_total_sum_witness :
    ((hindexKs hindexFour).length ∣ hindexFour.length) ∧
    ((mkTransitionMatrices (hindexRps hindexFour) (absCount hindexFour)).rps.map
      fun x => ((mkTransitionMatrices (hindexRps hindexFour) (absCount hindexFour)).rps.map
        fun y => (mkTransitionMatrices (hindexRps hindexFour)
          (absCount hindexFour)).absolute x y).sum).sum
      = hindexFour.length / (hindexKs hindexFour).length :=
  ⟨by decide, C10_absolute_matrix_total_sum hindexFour _ (by decide) rfl⟩

/-! ## Claims C3 and C8: merge_single_node_buses -/

theorem connectionMatrix_err {busList : List String} :
    ∀ (net : List NetRow) (mat : String → String → Bool),
      (∃ row ∈ net, row.pTecRepr = some "SN") →
      (∀ row ∈ net, row.pTecRepr = some "SN" → row.c.getD "" ∉ busList) →
      net.foldlM
        (fun mat row =>
          if row.pTecRepr = some "SN" then connectionMatrixStep busList mat row
          else Except.ok mat)
        mat = Except.error PyErr.keyErr := by
  intro net
  induction net with
  | nil =>
    intro mat h1 _
    obtain ⟨row, hrow, _⟩ := h1
    cases hrow
  | cons row t ih =>
    intro mat h1 h2
    rw [List.foldlM_cons]
    by_cases hSN : row.pTecRepr = some "SN"
    · rw [if_pos hSN]
      have hc : row.c.getD "" ∉ busList := h2 row (List.mem_cons_self _ _) hSN
      have hstep : connectionMatrixStep busList mat row = Except.error PyErr.keyErr := by
        simp only [connectionMatrixStep]
        rw [if_neg]
        intro hcond
        exact hc hcond.2.2
      rw [hstep]
      rfl
    · rw [if_neg hSN]
      have h1' : ∃ r ∈ t, r.pTecRepr = some "SN" := by
        obtain ⟨r, hr, hrSN⟩ := h1
        rcases List.mem_cons.mp hr with rfl | hrt
        · exact absurd hrSN hSN
        · exact ⟨r, hrt, hrSN⟩
      have h2' : ∀ r ∈ t, r.pTecRepr = some "SN" → r.c.getD "" ∉ busList :=
        fun r hr => h2 r (List.mem_cons_of_mem _ hr)
      exact ih mat h1' h2'

/-- C3: the claim's merged state is never produced.  On every CaseStudy
whose network table holds at least one SN-tagged row and whose circuit
labels are not bus names — in particular the claim's own three-bus scenario
under the canonical three-level (i, j, c) network index of
ExcelReader.get_Power_Network — merge_single_node_buses raises KeyError at
line 476 (the full index tuple reaches a .loc setitem against the flat bus
index and is read as a list of row labels) instead of producing the
merged-A-B tables the claim describes. -/
theorem C3_merge_raises_keyerror (cs : MergeCaseStudy)
    (h1 : ∃ row ∈ cs.dPower_Network, row.pTecRepr = some "SN")
    (h2 : ∀ row ∈ cs.dPower_Network, row.pTecRepr = some "SN" →
      row.c.getD "" ∉ cs.dPower_BusInfo.map fun b => b.name) :
    merge_single_node_buses cs = Except.error PyErr.keyErr := by
  have hcm : connectionMatrix cs.dPower_Network (cs.dPower_BusInfo.map fun b => b.name)
      = Except.error PyErr.keyErr :=
    connectionMatrix_err cs.dPower_Network _ h1 h2
  simp only [merge_single_node_buses, hcm]

theorem C3_merge_raises_keyerror_witness :
    merge_single_node_buses csMergeABC = Except.error PyErr.keyErr :=
  C3_merge_raises_keyerror csMergeABC (by decide) (by decide)

/-- Groupwise aggregation facts of lines 541-556, read off the embedding:
YearCom and YearDecom aggregate by mean, LineID and the technical
representation take the first row, and the circuit and pTecRepr columns are
dropped — what the (unreachable) aggregation stage would compute. -/
theorem agg_X (key : String × String) (g : List NetRow) :
    (aggNetworkGroup key g).X = ((g.map fun row => 1 / row.X).sum)⁻¹ := rfl

theorem agg_Pmax (key : String × String) (g : List NetRow) :
    (aggNetworkGroup key g).Pmax
      = ((listMin? (g.map fun row => row.Pmax)).getD 0) * g.length := rfl

theorem agg_techRepr (key : String × String) (g : List NetRow) :
    (aggNetworkGroup key g).techRepr
      = ((g.head?.map fun row => row.techRepr).getD "") := rfl

theorem agg_LineID (key : String × String) (g : List NetRow) :
    (aggNetworkGroup key g).LineID = ((g.head?.map fun row => row.LineID).getD "") := rfl

theorem agg_YearCom (key : String × String) (g : List NetRow) :
    (aggNetworkGroup key g).YearCom = listMean (g.map fun row => row.YearCom) := rfl

theorem agg_YearDecom (key : String × String) (g : List NetRow) :
    (aggNetworkGroup key g).YearDecom = listMean (g.map fun row => row.YearDecom) := rfl

theorem netTechTransform_techRepr (rows : List NetRow) (row : NetRow) :
    (netTechTransform rows row).techRepr =
      if ((rows.filter fun s => s.i = row.i ∧ s.j = row.j).map
          fun s => s.techRepr).contains "DC-OPF" then "DC-OPF"
      else (((rows.filter fun s => s.i = row.i ∧ s.j = row.j).head?.map
        fun s => s.techRepr).getD "") := rfl

/-- C8: the aggregation stage the claim describes never runs on canonically
indexed inputs: merge_single_node_buses raises KeyError at line 476 on the
first SN-tagged line — here the parallel-lines scenario whose merge would
create two rows sharing key (C, merged-A-B) — before any (i, j) grouping.
Moreover the aggregation of lines 541-557, taken in isolation, gives
YearCom the mean of the parallel rows (2005 for rows commissioned 2000 and
2010) rather than the first row's value, contradicting the claim's "all
other fields take the first row's value" even at the stage level. -/
theorem C8_aggregation_unreachable :
    merge_single_node_buses csMergeParallel = Except.error PyErr.keyErr ∧
    (aggNetworkGroup ("C", "merged-A-B")
      [{ i := "C", j := "merged-A-B", c := some "1", pTecRepr := some "ACDC", X := 1,
         Pmax := 2, techRepr := "ACDC", LineID := "L2", YearCom := 2000, YearDecom := 0 },
       { i := "C", j := "merged-A-B", c := some "1", pTecRepr := some "ACDC", X := 1,
         Pmax := 3, techRepr := "ACDC", LineID := "L3", YearCom := 2010,
         YearDecom := 0 }]).YearCom = 2005 ∧
    (2005 : ℚ) ≠ 2000 := by
  refine ⟨by decide, ?_, by norm_num⟩
  simp only [aggNetworkGroup, listMean, List.map_cons, List.map_nil]
  norm_num

/-! ## Claim C2: scaling round trip remove_scaling then scale_CaseStudy -/

/-- C2 counterexample: remove_scaling followed by scale_CaseStudy does not
restore Qmin, one of the directly-multiplied fields listed by the claim,
even with valid (unit) power and cost factors.  Lines 246-255 invert only
the power, cost and angle factors, never the reactive-power factor of line
216, so each pass multiplies Qmin by 1e-3 again: a thermal generator with
Qmin 1 ends at 1e-6. -/
theorem C2_qmin_not_restored :
    ((remove_scaling csScalingCounter).bind scale_CaseStudy).map
        (fun out => out.dPower_ThermalGen.map fun g => g.Qmin)
      = Except.ok [some (1 / 1000000)] ∧
    csScalingCounter.dPower_ThermalGen.map (fun g => g.Qmin) = [some 1] := by
  constructor
  · simp only [remove_scaling, scale_CaseStudy, scale_dPower_Parameters,
      scale_dPower_Network, scale_dPower_Demand, scale_dPower_ThermalGen,
      scale_dPower_Inflows, scale_dPower_VRES, scale_dPower_Storage,
      scale_dPower_ImpExpHubs, scale_dPower_ImpExpProfiles,
      csScalingCounter, thermalRowQ, Except.bind, Except.map,
      List.filter, List.map]
    norm_num
  · simp [csScalingCounter, thermalRowQ]

theorem demand_roundtrip {p : ℚ} (hp : p ≠ 0) (rows : List ValueRow) :
    scale_dPower_Demand p (scale_dPower_Demand (1 / p) rows) = rows := by
  simp only [scale_dPower_Demand, List.map_map]
  have hid : rows.map ((fun rw => { rw with value := rw.value * p }) ∘
      fun rw : ValueRow => { rw with value := rw.value * (1 / p) }) = rows.map id := by
    apply List.map_congr_left
    intro rw _
    simp only [Function.comp_apply, id_eq]
    have hv : rw.value * (1 / p) * p = rw.value := by field_simp
    rw [hv]
  rw [hid, List.map_id]

theorem inflows_roundtrip {p : ℚ} (hp : p ≠ 0) (rows : List ValueRow) :
    scale_dPower_Inflows p (scale_dPower_Inflows (1 / p) rows) = rows := by
  simp only [scale_dPower_Inflows, List.map_map]
  have hid : rows.map ((fun rw => { rw with value := rw.value * p }) ∘
      fun rw : ValueRow => { rw with value := rw.value * (1 / p) }) = rows.map id := by
    apply List.map_congr_left
    intro rw _
    simp only [Function.comp_apply, id_eq]
    have hv : rw.value * (1 / p) * p = rw.value := by field_simp
    rw [hv]
  rw [hid, List.map_id]

theorem network_roundtrip {p : ℚ} (hp : p ≠ 0) (rows : List NetworkScaleRow) :
    scale_dPower_Network p (scale_dPower_Network (1 / p) rows)
      = rows.map fun rw => { rw with pInvestCost := some (rw.pInvestCost.getD 0) } := by
  simp only [scale_dPower_Network, List.map_map]
  apply List.map_congr_left
  intro rw _
  simp only [Function.comp_apply, Option.getD_some]
  have hv : rw.pPmax * (1 / p) * p = rw.pPmax := by field_simp
  rw [hv]

theorem hubs_roundtrip {p : ℚ} (hp : p ≠ 0) (rows : List HubRow) :
    scale_dPower_ImpExpHubs p (scale_dPower_ImpExpHubs (1 / p) rows) = rows := by
  simp only [scale_dPower_ImpExpHubs, List.map_map]
  have hid : rows.map
      ((fun rw => { rw with PmaxImport := rw.PmaxImport * p, PmaxExport := rw.PmaxExport * p })
        ∘ fun rw : HubRow =>
          { rw with PmaxImport := rw.PmaxImport * (1 / p), PmaxExport := rw.PmaxExport * (1 / p) })
      = rows.map id := by
    apply List.map_congr_left
    intro rw _
    simp only [Function.comp_apply, id_eq]
    have h1 : rw.PmaxImport * (1 / p) * p = rw.PmaxImport := by field_simp
    have h2 : rw.PmaxExport * (1 / p) * p = rw.PmaxExport := by field_simp
    rw [h1, h2]
  rw [hid, List.map_id]

theorem profiles_roundtrip {p : ℚ} (hp : p ≠ 0) (rows : List ImpExpRow) :
    scale_dPower_ImpExpProfiles p (scale_dPower_ImpExpProfiles (1 / p) rows) = rows := by
  simp only [scale_dPower_ImpExpProfiles, List.map_map]
  have hid : rows.map ((fun rw => { rw with ImpExp := rw.ImpExp * p }) ∘
      fun rw : ImpExpRow => { rw with ImpExp := rw.ImpExp * (1 / p) }) = rows.map id := by
    apply List.map_congr_left
    intro rw _
    simp only [Function.comp_apply, id_eq]
    have hv : rw.ImpExp * (1 / p) * p = rw.ImpExp := by field_simp
    rw [hv]
  rw [hid, List.map_id]

theorem filter_map_filter_map {α β : Type} (P : α → Bool) (f₂ f₁ : α → α)
    (proj target : α → β) (l : List α)
    (hf : ∀ g, P (f₁ g) = P g)
    (hcomp : ∀ g, proj (f₂ (f₁ g)) = target g) :
    ((((l.filter P).map f₁).filter P).map f₂).map proj
      = (l.filter P).map target := by
  rw [List.filter_map]
  have h : (l.filter P).filter (P ∘ f₁) = l.filter P :=
    List.filter_eq_self.mpr (by
      intro g hg
      have hPg := (List.mem_filter.mp hg).2
      show P (f₁ g) = true
      rw [hf g]
      exact hPg)
  rw [h, List.map_map, List.map_map]
  apply List.map_congr_left
  intro g hg
  exact hcomp g

theorem thermal_roundtrip {p c : ℚ} (hp : p ≠ 0) (r : ℚ)
    (rows : List ThermalGenRow) :
    (scale_dPower_ThermalGen p c r (scale_dPower_ThermalGen (1 / p) (1 / c) r rows)).map
        (fun g => (g.RampUp, g.RampDw, g.Qmin, g.Qmax))
      = (rows.filter fun g => g.ExisUnits > 0 ∨ g.EnableInvest > 0).map
          fun g => (g.RampUp, g.RampDw, some (g.Qmin.getD 0 * r * r),
            some (g.Qmax.getD 0 * r * r)) := by
  simp only [scale_dPower_ThermalGen]
  refine filter_map_filter_map _ _ _ _ _ rows (fun g => rfl) ?_
  intro g
  simp only [Option.getD_some, Prod.mk.injEq]
  exact ⟨by field_simp, by field_simp, trivial⟩

theorem scale_CaseStudy_ok {cs cs' : ScalingCaseStudy}
    (h : scale_CaseStudy cs = Except.ok cs') :
    ∃ srows, cs' = { cs with
      dPower_Parameters := scale_dPower_Parameters cs.power_scaling_factor
        cs.cost_scaling_factor cs.angle_to_rad_scaling_factor cs.dPower_Parameters,
      dPower_Network := scale_dPower_Network cs.power_scaling_factor cs.dPower_Network,
      dPower_Demand := scale_dPower_Demand cs.power_scaling_factor cs.dPower_Demand,
      dPower_ThermalGen :=
        if cs.dPower_Parameters.pEnableThermalGen then
          scale_dPower_ThermalGen cs.power_scaling_factor cs.cost_scaling_factor
            cs.reactive_power_scaling_factor cs.dPower_ThermalGen
        else cs.dPower_ThermalGen,
      dPower_Inflows :=
        if cs.hasInflows then scale_dPower_Inflows cs.power_scaling_factor cs.dPower_Inflows
        else cs.dPower_Inflows,
      dPower_VRES :=
        if cs.dPower_Parameters.pEnableVRES then
          scale_dPower_VRES cs.power_scaling_factor cs.cost_scaling_factor
            cs.reactive_power_scaling_factor cs.dPower_VRES
        else cs.dPower_VRES,
      dPower_Storage := srows,
      dPower_ImpExpHubs :=
        if cs.dPower_Parameters.pEnablePowerImportExport then
          scale_dPower_ImpExpHubs cs.power_scaling_factor cs.dPower_ImpExpHubs
        else cs.dPower_ImpExpHubs,
      dPower_ImpExpProfiles :=
        if cs.dPower_Parameters.pEnablePowerImportExport then
          scale_dPower_ImpExpProfiles cs.power_scaling_factor cs.dPower_ImpExpProfiles
        else cs.dPower_ImpExpProfiles } := by
  simp only [scale_CaseStudy] at h
  cases hst : (if cs.dPower_Parameters.pEnableStorage then
      scale_dPower_Storage cs.power_scaling_factor cs.cost_scaling_factor
        cs.reactive_power_scaling_factor cs.dPower_Storage
    else Except.ok cs.dPower_Storage) with
  | error e =>
    rw [hst] at h
    cases h
  | ok srows =>
    rw [hst] at h
    injection h with h
    exact ⟨srows, h.symm⟩

theorem remove_scaling_ok {cs cs1 : ScalingCaseStudy}
    (h : remove_scaling cs = Except.ok cs1) :
    ∃ v, scale_CaseStudy { cs with
        power_scaling_factor := 1 / cs.power_scaling_factor,
        cost_scaling_factor := 1 / cs.cost_scaling_factor,
        angle_to_rad_scaling_factor := 1 / cs.angle_to_rad_scaling_factor }
      = Except.ok v ∧
    cs1 = { v with
      power_scaling_factor := 1 / v.power_scaling_factor,
      cost_scaling_factor := 1 / v.cost_scaling_factor,
      angle_to_rad_scaling_factor := 1 / v.angle_to_rad_scaling_factor } := by
  simp only [remove_scaling] at h
  cases hs : scale_CaseStudy { cs with
      power_scaling_factor := 1 / cs.power_scaling_factor,
      cost_scaling_factor := 1 / cs.cost_scaling_factor,
      angle_to_rad_scaling_factor := 1 / cs.angle_to_rad_scaling_factor } with
  | error e =>
    rw [hs] at h
    cases h
  | ok v =>
    rw [hs] at h
    injection h with h
    exact ⟨v, rfl, h.symm⟩

/-- C2 (amended): for nonzero power, cost and angle factors, running
remove_scaling and then scale_CaseStudy restores every field that is
multiplied only by power, cost or angle factors: pSBase, pENSCost, pLOLCost,
pMaxAngleDCOPF, the network Pmax column (pInvestCost is additionally
NaN-filled), the demand, inflow and import/export tables, and the thermal
ramp columns (on the generators kept by the unit filter, which the claim
itself excludes).  The reactive fields Qmin and Qmax are not restored: the
reactive factor is never inverted, so they come back multiplied by its
square. -/
theorem C2_amended (cs cs1 cs2 : ScalingCaseStudy)
    (hp : cs.power_scaling_factor ≠ 0) (hc : cs.cost_scaling_factor ≠ 0)
    (ha : cs.angle_to_rad_scaling_factor ≠ 0)
    (h1 : remove_scaling cs = Except.ok cs1)
    (h2 : scale_CaseStudy cs1 = Except.ok cs2) :
    cs2.dPower_Parameters.pSBase = cs.dPower_Parameters.pSBase ∧
    cs2.dPower_Parameters.pENSCost = cs.dPower_Parameters.pENSCost ∧
    cs2.dPower_Parameters.pLOLCost = cs.dPower_Parameters.pLOLCost ∧
    cs2.dPower_Parameters.pMaxAngleDCOPF = cs.dPower_Parameters.pMaxAngleDCOPF ∧
    cs2.dPower_Network = cs.dPower_Network.map
      (fun rw => { rw with pInvestCost := some (rw.pInvestCost.getD 0) }) ∧
    cs2.dPower_Demand = cs.dPower_Demand ∧
    cs2.dPower_Inflows = cs.dPower_Inflows ∧
    cs2.dPower_ImpExpHubs = cs.dPower_ImpExpHubs ∧
    cs2.dPower_ImpExpProfiles = cs.dPower_ImpExpProfiles ∧
    (cs.dPower_Parameters.pEnableThermalGen = true →
      cs2.dPower_ThermalGen.map (fun g => (g.RampUp, g.RampDw, g.Qmin, g.Qmax))
        = (cs.dPower_ThermalGen.filter fun g => g.ExisUnits > 0 ∨ g.EnableInvest > 0).map
            fun g => (g.RampUp, g.RampDw,
              some (g.Qmin.getD 0 * cs.reactive_power_scaling_factor
                * cs.reactive_power_scaling_factor),
              some (g.Qmax.getD 0 * cs.reactive_power_scaling_factor
                * cs.reactive_power_scaling_factor))) ∧
    (cs.dPower_Parameters.pEnableThermalGen = false →
      cs2.dPower_ThermalGen = cs.dPower_ThermalGen) := by
  obtain ⟨v, hs1, hcs1⟩ := remove_scaling_ok h1
  obtain ⟨srows1, hv⟩ := scale_CaseStudy_ok hs1
  subst hv
  subst hcs1
  obtain ⟨srows2, hcs2⟩ := scale_CaseStudy_ok h2
  subst hcs2
  refine ⟨?_, ?_, ?_, ?_, ?_, ?_, ?_, ?_, ?_, ?_, ?_⟩
  · simp only [scale_dPower_Parameters, one_div_one_div]
    field_simp
  · simp only [scale_dPower_Parameters, one_div_one_div]
    field_simp
  · simp only [scale_dPower_Parameters, one_div_one_div]
    field_simp
  · simp only [scale_dPower_Parameters, one_div_one_div]
    field_simp
  · simp only [one_div_one_div]
    exact network_roundtrip hp _
  · simp only [one_div_one_div]
    exact demand_roundtrip hp _
  · cases hinf : cs.hasInflows with
    | false => rw [if_neg Bool.false_ne_true, if_neg Bool.false_ne_true]
    | true =>
      rw [if_pos rfl, if_pos rfl, one_div_one_div]
      exact inflows_roundtrip hp _
  · dsimp only [scale_dPower_Parameters]
    cases hie : cs.dPower_Parameters.pEnablePowerImportExport with
    | false => rw [if_neg Bool.false_ne_true, if_neg Bool.false_ne_true]
    | true =>
      rw [if_pos rfl, if_pos rfl, one_div_one_div]
      exact hubs_roundtrip hp _
  · dsimp only [scale_dPower_Parameters]
    cases hie : cs.dPower_Parameters.pEnablePowerImportExport with
    | false => rw [if_neg Bool.false_ne_true, if_neg Bool.false_ne_true]
    | true =>
      rw [if_pos rfl, if_pos rfl, one_div_one_div]
      exact profiles_roundtrip hp _
  · intro hTh
    dsimp only [scale_dPower_Parameters]
    rw [hTh, if_pos rfl, if_pos rfl, one_div_one_div, one_div_one_div]
    exact thermal_roundtrip hp _ _
  · intro hTh
    dsimp only [scale_dPower_Parameters]
    rw [hTh, if_neg Bool.false_ne_true, if_neg Bool.false_ne_true]

theorem scale_csScalingWitness :
    scale_CaseStudy csScalingWitness = Except.ok csScalingWitness := by
  simp only [scale_CaseStudy, csScalingWitness, scale_dPower_Parameters,
    scale_dPower_Network, scale_dPower_Demand, scale_dPower_Inflows,
    scale_dPower_ThermalGen, scale_dPower_VRES, scale_dPower_Storage,
    scale_dPower_ImpExpHubs, scale_dPower_ImpExpProfiles, List.filter, List.map]
  norm_num

theorem remove_csScalingWitness :
    remove_scaling csScalingWitness = Except.ok csScalingWitness := by
  simp only [remove_scaling, scale_CaseStudy, csScalingWitness, scale_dPower_Parameters,
    scale_dPower_Network, scale_dPower_Demand, scale_dPower_Inflows,
    scale_dPower_ThermalGen, scale_dPower_VRES, scale_dPower_Storage,
    scale_dPower_ImpExpHubs, scale_dPower_ImpExpProfiles, List.filter, List.map]
  norm_num

theorem C2_amended_witness :
    csScalingWitness.dPower_Parameters.pSBase = csScalingWitness.dPower_Parameters.pSBase ∧
    csScalingWitness.dPower_Parameters.pENSCost = csScalingWitness.dPower_Parameters.pENSCost ∧
    csScalingWitness.dPower_Parameters.pLOLCost = csScalingWitness.dPower_Parameters.pLOLCost ∧
    csScalingWitness.dPower_Parameters.pMaxAngleDCOPF
      = csScalingWitness.dPower_Parameters.pMaxAngleDCOPF ∧
    csScalingWitness.dPower_Network = csScalingWitness.dPower_Network.map
      (fun rw => { rw with pInvestCost := some (rw.pInvestCost.getD 0) }) ∧
    csScalingWitness.dPower_Demand = csScalingWitness.dPower_Demand ∧
    csScalingWitness.dPower_Inflows = csScalingWitness.dPower_Inflows ∧
    csScalingWitness.dPower_ImpExpHubs = csScalingWitness.dPower_ImpExpHubs ∧
    csScalingWitness.dPower_ImpExpProfiles = csScalingWitness.dPower_ImpExpProfiles ∧
    (csScalingWitness.dPower_Parameters.pEnableThermalGen = true →
      csScalingWitness.dPower_ThermalGen.map (fun g => (g.RampUp, g.RampDw, g.Qmin, g.Qmax))
        = (csScalingWitness.dPower_ThermalGen.filter
              fun g => g.ExisUnits > 0 ∨ g.EnableInvest > 0).map
            fun g => (g.RampUp, g.RampDw,
              some (g.Qmin.getD 0 * csScalingWitness.reactive_power_scaling_factor
                * csScalingWitness.reactive_power_scaling_factor),
              some (g.Qmax.getD 0 * csScalingWitness.reactive_power_scaling_factor
                * csScalingWitness.reactive_power_scaling_factor))) ∧
    (csScalingWitness.dPower_Parameters.pEnableThermalGen = false →
      csScalingWitness.dPower_ThermalGen = csScalingWitness.dPower_ThermalGen) :=
  C2_amended csScalingWitness csScalingWitness csScalingWitness
    (by norm_num [csScalingWitness]) (by norm_num [csScalingWitness])
    (by norm_num [csScalingWitness]) remove_csScalingWitness scale_csScalingWitness

/-! ## Claim C7: shift_ks round trip and (rp, k) pair preservation -/

theorem listMin?_cons_eq [LinearOrder α] (a : α) (t : List α) :
    listMin? (a :: t) = match listMin? t with
      | none => some a
      | some m => some (min a m) := by
  simp only [listMin?]

theorem listMax?_cons_eq [LinearOrder α] (a : α) (t : List α) :
    listMax? (a :: t) = match listMax? t with
      | none => some a
      | some m => some (max a m) := by
  simp only [listMax?]

theorem listMin?_eq_none [LinearOrder α] {l : List α} (h : listMin? l = none) :
    l = [] := by
  cases l with
  | nil => rfl
  | cons a t =>
    rw [listMin?_cons_eq] at h
    cases h' : listMin? t <;> rw [h'] at h <;> cases h

theorem listMax?_eq_none [LinearOrder α] {l : List α} (h : listMax? l = none) :
    l = [] := by
  cases l with
  | nil => rfl
  | cons a t =>
    rw [listMax?_cons_eq] at h
    cases h' : listMax? t <;> rw [h'] at h <;> cases h

theorem listMin?_spec [LinearOrder α] {l : List α} {m : α}
    (h : listMin? l = some m) : m ∈ l ∧ ∀ x ∈ l, m ≤ x := by
  induction l generalizing m with
  | nil => cases h
  | cons a t ih =>
    rw [listMin?_cons_eq] at h
    cases h' : listMin? t with
    | none =>
      rw [h'] at h
      injection h with hm
      subst hm
      have ht := listMin?_eq_none h'
      subst ht
      refine ⟨List.mem_cons_self a [], ?_⟩
      intro x hx
      rcases List.mem_cons.mp hx with rfl | hx'
      · exact le_refl x
      · cases hx'
    | some m' =>
      rw [h'] at h
      injection h with hm
      subst hm
      obtain ⟨hmem, hle⟩ := ih h'
      constructor
      · rcases min_cases a m' with ⟨he, _⟩ | ⟨he, _⟩
        · rw [he]; exact List.mem_cons_self a t
        · rw [he]; exact List.mem_cons_of_mem a hmem
      · intro x hx
        rcases List.mem_cons.mp hx with rfl | hx'
        · exact min_le_left _ _
        · exact le_trans (min_le_right a m') (hle x hx')

theorem listMax?_spec [LinearOrder α] {l : List α} {m : α}
    (h : listMax? l = some m) : m ∈ l ∧ ∀ x ∈ l, x ≤ m := by
  induction l generalizing m with
  | nil => cases h
  | cons a t ih =>
    rw [listMax?_cons_eq] at h
    cases h' : listMax? t with
    | none =>
      rw [h'] at h
      injection h with hm
      subst hm
      have ht := listMax?_eq_none h'
      subst ht
      refine ⟨List.mem_cons_self a [], ?_⟩
      intro x hx
      rcases List.mem_cons.mp hx with rfl | hx'
      · exact le_refl x
      · cases hx'
    | some m' =>
      rw [h'] at h
      injection h with hm
      subst hm
      obtain ⟨hmem, hle⟩ := ih h'
      constructor
      · rcases max_cases a m' with ⟨he, _⟩ | ⟨he, _⟩
        · rw [he]; exact List.mem_cons_self a t
        · rw [he]; exact List.mem_cons_of_mem a hmem
      · intro x hx
        rcases List.mem_cons.mp hx with rfl | hx'
        · exact le_max_left _ _
        · exact le_trans (hle x hx') (le_max_right a m')

theorem listMin?_eq_some [LinearOrder α] {l : List α} {m : α}
    (hmem : m ∈ l) (hle : ∀ x ∈ l, m ≤ x) : listMin? l = some m := by
  cases h : listMin? l with
  | none => rw [listMin?_eq_none h] at hmem; cases hmem
  | some m' =>
    obtain ⟨hm', hb⟩ := listMin?_spec h
    rw [le_antisymm (hle m' hm') (hb m hmem)]

theorem listMax?_eq_some [LinearOrder α] {l : List α} {m : α}
    (hmem : m ∈ l) (hle : ∀ x ∈ l, x ≤ m) : listMax? l = some m := by
  cases h : listMax? l with
  | none => rw [listMax?_eq_none h] at hmem; cases hmem
  | some m' =>
    obtain ⟨hm', hb⟩ := listMax?_spec h
    rw [le_antisymm (hb m hmem) (hle m' hm')]

theorem goodKTable_min_max {N kmin : ℤ} {rows : List ShiftRow} (hN : 1 ≤ N)
    (hg : GoodKTable N kmin rows) :
    listMin? (rows.map fun row => parseK row.k) = some kmin ∧
    listMax? (rows.map fun row => parseK row.k) = some (kmin + N - 1) := by
  obtain ⟨hcan, hbound, hcontig⟩ := hg
  obtain ⟨r0, hr0, hr0v⟩ := hcontig kmin le_rfl (by omega)
  obtain ⟨r1, hr1, hr1v⟩ := hcontig (kmin + N - 1) (by omega) (by omega)
  constructor
  · refine listMin?_eq_some (List.mem_map.mpr ⟨r0, hr0, hr0v⟩) ?_
    rintro x hx
    obtain ⟨r, hr, rfl⟩ := List.mem_map.mp hx
    exact (hbound r hr).1
  · refine listMax?_eq_some (List.mem_map.mpr ⟨r1, hr1, hr1v⟩) ?_
    rintro x hx
    obtain ⟨r, hr, rfl⟩ := List.mem_map.mp hx
    have := (hbound r hr).2
    omega

theorem goodKTable_ne_nil {N kmin : ℤ} {rows : List ShiftRow} (hN : 1 ≤ N)
    (hg : GoodKTable N kmin rows) : rows.isEmpty = false := by
  obtain ⟨r0, hr0, _⟩ := hg.2.2 kmin le_rfl (by omega)
  cases rows with
  | nil => cases hr0
  | cons _ _ => rfl

theorem shiftTable_good_eq {N kmin : ℤ} {rows : List ShiftRow} (hN : 1 ≤ N)
    (hg : GoodKTable N kmin rows) (shift : ℤ) :
    shiftTable shift rows
      = (rows.map (shiftKey N kmin shift)).insertionSort
          fun a b => shiftRowLe a b = true := by
  obtain ⟨hmin, hmax⟩ := goodKTable_min_max hN hg
  have hne := goodKTable_ne_nil hN hg
  rw [shiftTable, if_neg (by rw [hne]; exact Bool.false_ne_true)]
  simp only [hmin, hmax, Option.getD_some]
  have hmod : kmin + N - 1 - kmin + 1 = N := by ring
  simp only [hmod]
  rfl

theorem goodKTable_parse_format {N kmin : ℤ} {rows : List ShiftRow}
    (hg : GoodKTable N kmin rows) {w : ℤ} (h1 : kmin ≤ w) (h2 : w < kmin + N) :
    parseK (formatK w) = w := by
  obtain ⟨r, hr, hrv⟩ := hg.2.2 w h1 h2
  have hc := hg.1 r hr
  rw [hrv] at hc
  rw [hc]
  exact hrv

theorem shiftKey_parse {N kmin : ℤ} {rows : List ShiftRow} (hN : 1 ≤ N)
    (hg : GoodKTable N kmin rows) (shift : ℤ) (row : ShiftRow) :
    parseK (shiftKey N kmin shift row).k
        = (parseK row.k - kmin + shift) % N + kmin ∧
    kmin ≤ (parseK row.k - kmin + shift) % N + kmin ∧
    (parseK row.k - kmin + shift) % N + kmin < kmin + N := by
  have hlo := Int.emod_nonneg (parseK row.k - kmin + shift) (by omega : N ≠ 0)
  have hhi := Int.emod_lt_of_pos (parseK row.k - kmin + shift) (by omega : 0 < N)
  exact ⟨goodKTable_parse_format hg (by omega) (by omega), by omega, by omega⟩

theorem goodKTable_shift {N kmin : ℤ} {rows : List ShiftRow} (hN : 1 ≤ N)
    (hg : GoodKTable N kmin rows) (shift : ℤ) :
    GoodKTable N kmin (shiftTable shift rows) := by
  have hmem : ∀ row' : ShiftRow, row' ∈ shiftTable shift rows ↔
      ∃ row ∈ rows, shiftKey N kmin shift row = row' := by
    intro row'
    rw [shiftTable_good_eq hN hg shift, (List.perm_insertionSort _ _).mem_iff,
      List.mem_map]
  refine ⟨?_, ?_, ?_⟩
  · intro row' hrow'
    obtain ⟨row, hrow, rfl⟩ := (hmem _).mp hrow'
    obtain ⟨hp, h1, h2⟩ := shiftKey_parse hN hg shift row
    rw [hp]
    rfl
  · intro row' hrow'
    obtain ⟨row, hrow, rfl⟩ := (hmem _).mp hrow'
    obtain ⟨hp, h1, h2⟩ := shiftKey_parse hN hg shift row
    rw [hp]
    exact ⟨h1, h2⟩
  · intro w hw1 hw2
    have hlo := Int.emod_nonneg (w - kmin - shift) (by omega : N ≠ 0)
    have hhi := Int.emod_lt_of_pos (w - kmin - shift) (by omega : 0 < N)
    obtain ⟨row, hrow, hrowv⟩ :=
      hg.2.2 ((w - kmin - shift) % N + kmin) (by omega) (by omega)
    refine ⟨shiftKey N kmin shift row, (hmem _).mpr ⟨row, hrow, rfl⟩, ?_⟩
    obtain ⟨hp, _, _⟩ := shiftKey_parse hN hg shift row
    rw [hp, hrowv]
    have e1 : (w - kmin - shift) % N + kmin - kmin + shift
        = (w - kmin - shift) % N + shift := by ring
    rw [e1, Int.emod_add_emod]
    have e2 : w - kmin - shift + shift = w - kmin := by ring
    rw [e2, Int.emod_eq_of_lt (by omega) (by omega)]
    ring

theorem goodKTable_mem_k {N kmin : ℤ} {rows : List ShiftRow}
    (hg : GoodKTable N kmin rows) (lbl : String) :
    (lbl ∈ rows.map fun row => row.k) ↔
      ∃ w, kmin ≤ w ∧ w < kmin + N ∧ lbl = formatK w := by
  constructor
  · intro h
    obtain ⟨row, hrow, rfl⟩ := List.mem_map.mp h
    exact ⟨parseK row.k, (hg.2.1 row hrow).1, (hg.2.1 row hrow).2,
      (hg.1 row hrow).symm⟩
  · rintro ⟨w, h1, h2, rfl⟩
    obtain ⟨row, hrow, hrv⟩ := hg.2.2 w h1 h2
    refine List.mem_map.mpr ⟨row, hrow, ?_⟩
    have hc := hg.1 row hrow
    rw [hrv] at hc
    exact hc.symm

theorem shiftKey_roundtrip {N kmin : ℤ} {rows : List ShiftRow} (hN : 1 ≤ N)
    (hg : GoodKTable N kmin rows) (n : ℤ) {row : ShiftRow} (hrow : row ∈ rows) :
    shiftKey N kmin ((-n) % N) (shiftKey N kmin n row) = row := by
  obtain ⟨hp, h1, h2⟩ := shiftKey_parse hN hg n row
  have hbound := hg.2.1 row hrow
  have hk : formatK ((parseK (shiftKey N kmin n row).k - kmin + (-n) % N) % N + kmin)
      = row.k := by
    rw [hp]
    have e1 : (parseK row.k - kmin + n) % N + kmin - kmin + (-n) % N
        = (parseK row.k - kmin + n) % N + (-n) % N := by ring
    rw [e1, ← Int.add_emod]
    have e2 : parseK row.k - kmin + n + -n = parseK row.k - kmin := by ring
    rw [e2, Int.emod_eq_of_lt (by omega) (by omega)]
    have e3 : parseK row.k - kmin + kmin = parseK row.k := by ring
    rw [e3]
    exact hg.1 row hrow
  have hexp : shiftKey N kmin ((-n) % N) (shiftKey N kmin n row)
      = ⟨row.rp, formatK ((parseK (shiftKey N kmin n row).k - kmin + (-n) % N) % N
          + kmin), row.data⟩ := rfl
  rw [hexp, hk]

theorem goodKTable_shiftRowsCounter : GoodKTable 2 1 shiftRowsCounter := by
  refine ⟨by decide, by decide, ?_⟩
  intro v h1 h2
  have hv : v = 1 ∨ v = 2 := by omega
  rcases hv with rfl | rfl
  · exact ⟨{ rp := "rp1", k := "k0001", data := 0 }, by decide, by decide⟩
  · exact ⟨{ rp := "rp2", k := "k0002", data := 1 }, by decide, by decide⟩

/-- C7 counterexample: the second half of the claim fails.  In the two-row
table with rows (rp1, k0001) and (rp2, k0002) — whose k labels form the
contiguous zero-padded range k0001..k0002 — shifting by 1 relabels every k,
so the pair (rp1, k0001) is in the original (rp, k) pair set but not in the
shifted one: shift_ks preserves the set of k labels per table, not the set
of (rp, k) pairs, because each rp keeps its own rows while their k labels
rotate. -/
theorem C7_pair_set_not_preserved :
    GoodKTable 2 1 shiftRowsCounter ∧
    ("rp1", "k0001") ∈ (shiftRowsCounter.map fun row => (row.rp, row.k)) ∧
    ("rp1", "k0001") ∉ ((shiftTable 1 shiftRowsCounter).map fun row => (row.rp, row.k)) :=
  ⟨goodKTable_shiftRowsCounter, by decide, by decide⟩

/-- C7 (amended): for a table whose k labels are canonically zero-padded and
whose parsed values form the contiguous range [kmin, kmin + N) with N ≥ 1,
shifting by n and then by (-n) mod N restores the original table (as a
multiset of rows, i.e. the original assignment of row data to (rp, k) keys),
and a single shift preserves the set of k labels of the table — but not, in
general, the set of (rp, k) pairs. -/
theorem C7_amended_shift_roundtrip (N kmin n : ℤ) (rows : List ShiftRow)
    (hN : 1 ≤ N) (hg : GoodKTable N kmin rows) :
    List.Perm (shiftTable ((-n) % N) (shiftTable n rows)) rows ∧
    ∀ lbl : String, (lbl ∈ (shiftTable n rows).map fun row => row.k) ↔
      lbl ∈ rows.map fun row => row.k := by
  have hg1 : GoodKTable N kmin (shiftTable n rows) := goodKTable_shift hN hg n
  constructor
  · have p2 : List.Perm (shiftTable ((-n) % N) (shiftTable n rows))
        ((shiftTable n rows).map (shiftKey N kmin ((-n) % N))) := by
      rw [shiftTable_good_eq hN hg1 ((-n) % N)]
      exact List.perm_insertionSort _ _
    have p1 : List.Perm (shiftTable n rows) (rows.map (shiftKey N kmin n)) := by
      rw [shiftTable_good_eq hN hg n]
      exact List.perm_insertionSort _ _
    have p3 := p1.map (shiftKey N kmin ((-n) % N))
    have heq : (rows.map (shiftKey N kmin n)).map (shiftKey N kmin ((-n) % N))
        = rows := by
      rw [List.map_map]
      have hid : rows.map (shiftKey N kmin ((-n) % N) ∘ shiftKey N kmin n)
          = rows.map id := by
        apply List.map_congr_left
        intro row hrow
        simp only [Function.comp_apply, id_eq]
        exact shiftKey_roundtrip hN hg n hrow
      rw [hid, List.map_id]
    rw [heq] at p3
    exact p2.trans p3
  · intro lbl
    rw [goodKTable_mem_k hg1 lbl, goodKTable_mem_k hg lbl]

theorem C7_amended_shift_roundtrip_witness :
    List.Perm (shiftTable ((-1 : ℤ) % 2) (shiftTable 1 shiftRowsCounter)) shiftRowsCounter ∧
    ∀ lbl : String, (lbl ∈ (shiftTable (1 : ℤ) shiftRowsCounter).map fun row => row.k) ↔
      lbl ∈ shiftRowsCounter.map fun row => row.k :=
  C7_amended_shift_roundtrip 2 1 1 shiftRowsCounter (by norm_num) goodKTable_shiftRowsCounter

end InOutModule
